import Mathlib

/-!
Verification of the AIDCP identity-provider and client-shim core
(`src/util/commons.py`, `src/idp/intent.py`, `src/clientshim/secure_client.py`)
against its specification.

The Python sources are shallowly embedded: dictionaries become ordered
association lists (Python 3.7+ dicts preserve insertion order), machine
integers become `Nat`, raised exceptions become `Except` errors, and
mutation of the module-level registries becomes explicit state passing.
-/

namespace Patchet

/-! ## Python whitespace and string helpers (`str.strip`, `str.split`, `re`)

`isPySpace` is the character class used by `str.strip()`, `str.isspace()`
and the `\s` class of the `re` module on `str` patterns: the ASCII
whitespace characters plus the Unicode whitespace code points. -/

def isPySpace (c : Char) : Bool :=
  [9, 10, 11, 12, 13, 28, 29, 30, 31, 32, 133, 160, 5760,
   8192, 8193, 8194, 8195, 8196, 8197, 8198, 8199, 8200, 8201, 8202,
   8232, 8233, 8239, 8287, 12288].contains c.toNat

/-- Removal of leading Python whitespace, as in `str.lstrip()`. -/
def stripStart (l : List Char) : List Char := l.dropWhile isPySpace

/-- Removal of trailing Python whitespace, as in `str.rstrip()`. -/
def stripEnd (l : List Char) : List Char := (l.reverse.dropWhile isPySpace).reverse

/-- Python `str.strip()`: removal of whitespace at both ends. -/
def pyStrip (l : List Char) : List Char := stripStart (stripEnd l)

/-- Python `str.split('\n')` on the character list: always returns at least
one (possibly empty) line. -/
def splitNl : List Char → List (List Char)
  | [] => [[]]
  | c :: rest =>
    if c = '\n' then [] :: splitNl rest
    else
      match splitNl rest with
      | [] => [[c]]
      | h :: t => (c :: h) :: t

/-- Python `str.replace('\r\n', '\n')`: a left-to-right, non-overlapping
scan replacing each CRLF pair by a single LF. -/
def replaceCRLF : List Char → List Char
  | [] => []
  | [c] => [c]
  | c1 :: c2 :: rest =>
    if c1 = '\r' ∧ c2 = '\n' then '\n' :: replaceCRLF rest
    else c1 :: replaceCRLF (c2 :: rest)

/-- Helper for the `re.sub` call in `normalize_prompt` (pattern
`'\n' '\s*' '\n'`). Given the characters after a newline, the regex engine
greedily consumes the maximal whitespace run and then backtracks to the last
newline inside it; the match extends to just after that last newline.
`alnrDrop l = some k` means the whitespace run at the start of `l` contains a
newline whose position-after is `k` (so the engine resumes at `l.drop k`);
`none` means no newline occurs in the run and the pattern fails to match. -/
def alnrDrop : List Char → Option Nat
  | [] => none
  | c :: rest =>
    if isPySpace c then
      match alnrDrop rest with
      | some k => some (k + 1)
      | none => if c = '\n' then some 1 else none
    else none

/-- The `re.sub` step of `normalize_prompt` (step 3, "collapse multiple
consecutive newlines", replacing each match of the blank-run pattern by a
single newline): at each newline the engine tries the pattern; on success the
matched span is replaced by one newline and scanning resumes after the
match. -/
def subBlank : List Char → List Char
  | [] => []
  | c :: rest =>
    if c = '\n' then
      match alnrDrop rest with
      | some k => '\n' :: subBlank (rest.drop k)
      | none => '\n' :: subBlank rest
    else c :: subBlank rest
termination_by l => l.length
decreasing_by
  all_goals simp only [List.length_cons, List.length_drop]
  all_goals omega

/-- `normalize_prompt` from `src/util/commons.py`, on character lists.
Steps exactly as the source: the `if not prompt` guard, `strip`,
`replace` of CRLF by LF, the blank-line regex, per-line `strip`,
joining, dropping empty lines, joining again (the final result is the join
of the stripped, non-empty lines of the processed string). -/
def normalizePromptChars (l : List Char) : List Char :=
  if l = [] then []
  else
    let normalized1 := pyStrip l
    let normalized2 := replaceCRLF normalized1
    let normalized3 := subBlank normalized2
    let lines := (splitNl normalized3).map pyStrip
    let lines2 := lines.filter (fun x => x ≠ [])
    List.intercalate ['\n'] lines2

/-- `normalize_prompt` from `src/util/commons.py`. -/
def normalize_prompt (s : String) : String :=
  String.mk (normalizePromptChars s.data)

/-- Spec-side notion of the formatting-independent content of a prompt:
its sequence of stripped, non-empty lines (splitting on newlines; the
trailing carriage return of a CRLF line is whitespace and is removed by the
per-line strip). Two prompts that differ only in line-ending style,
leading/trailing whitespace, per-line indentation, or runs of blank lines
have the same `promptContent`. -/
def promptContent (l : List Char) : List (List Char) :=
  ((splitNl l).map pyStrip).filter (fun x => x ≠ [])

def promptContentStr (s : String) : List (List Char) := promptContent s.data

/-- Rewriting of the last element of a list of lines (used to state how
`splitNl` distributes over append). -/
def modifyLastL (f : List Char → List Char) : List (List Char) → List (List Char)
  | [] => []
  | [a] => [f a]
  | a :: rest => a :: modifyLastL f rest

/-! ## SHA-256 (`hashlib.sha256(... .encode()).hexdigest()`)

Executable SHA-256 over byte lists, with 32-bit words represented as `Nat`
reduced modulo `2 ^ 32`.  Strings are encoded to UTF-8 first, as Python's
`str.encode()` does. -/

def w32 (n : Nat) : Nat := n % 4294967296

def rotr (r x : Nat) : Nat := w32 ((x >>> r) ||| (x <<< (32 - r)))

def bigSigZero (x : Nat) : Nat := (rotr 2 x) ^^^ (rotr 13 x) ^^^ (rotr 22 x)

def bigSigOne (x : Nat) : Nat := (rotr 6 x) ^^^ (rotr 11 x) ^^^ (rotr 25 x)

def smallSigZero (x : Nat) : Nat := (rotr 7 x) ^^^ (rotr 18 x) ^^^ (x >>> 3)

def smallSigOne (x : Nat) : Nat := (rotr 17 x) ^^^ (rotr 19 x) ^^^ (x >>> 10)

def chFn (x y z : Nat) : Nat := (x &&& y) ^^^ ((x ^^^ 4294967295) &&& z)

def majFn (x y z : Nat) : Nat := (x &&& y) ^^^ (x &&& z) ^^^ (y &&& z)

def sha256K : List Nat :=
  [1116352408, 1899447441, 3049323471, 3921009573,
   961987163, 1508970993, 2453635748, 2870763221,
   3624381080, 310598401, 607225278, 1426881987,
   1925078388, 2162078206, 2614888103, 3248222580,
   3835390401, 4022224774, 264347078, 604807628,
   770255983, 1249150122, 1555081692, 1996064986,
   2554220882, 2821834349, 2952996808, 3210313671,
   3336571891, 3584528711, 113926993, 338241895,
   666307205, 773529912, 1294757372, 1396182291,
   1695183700, 1986661051, 2177026350, 2456956037,
   2730485921, 2820302411, 3259730800, 3345764771,
   3516065817, 3600352804, 4094571909, 275423344,
   430227734, 506948616, 659060556, 883997877,
   958139571, 1322822218, 1537002063, 1747873779,
   1955562222, 2024104815, 2227730452, 2361852424,
   2428436474, 2756734187, 3204031479, 3329325298]

structure Sha256State where
  a : Nat
  b : Nat
  c : Nat
  d : Nat
  e : Nat
  f : Nat
  g : Nat
  h : Nat
deriving Repr, DecidableEq

def sha256Init : Sha256State :=
  ⟨1779033703, 3144134277, 1013904242, 2773480762,
   1359893119, 2600822924, 528734635, 1541459225⟩

def sha256Round (st : Sha256State) (k w : Nat) : Sha256State :=
  let t1 := w32 (st.h + bigSigOne st.e + chFn st.e st.f st.g + k + w)
  let t2 := w32 (bigSigZero st.a + majFn st.a st.b st.c)
  ⟨w32 (t1 + t2), st.a, st.b, st.c, w32 (st.d + t1), st.e, st.f, st.g⟩

/-- Big-endian packing of 4 bytes into one 32-bit word. -/
def toWords : List Nat → List Nat
  | b0 :: b1 :: b2 :: b3 :: rest => (((b0 * 256 + b1) * 256 + b2) * 256 + b3) :: toWords rest
  | _ => []

def nextW (w : List Nat) : Nat :=
  w32 (smallSigOne (w.getD (w.length - 2) 0) + w.getD (w.length - 7) 0 +
       smallSigZero (w.getD (w.length - 15) 0) + w.getD (w.length - 16) 0)

def extendW : List Nat → Nat → List Nat
  | w, 0 => w
  | w, n + 1 => extendW (w ++ [nextW w]) n

def sha256Schedule (block : List Nat) : List Nat := extendW (toWords block) 48

def processBlock (st : Sha256State) (block : List Nat) : Sha256State :=
  let ws := sha256Schedule block
  let r := (sha256K.zip ws).foldl (fun s kw => sha256Round s kw.1 kw.2) st
  ⟨w32 (st.a + r.a), w32 (st.b + r.b), w32 (st.c + r.c), w32 (st.d + r.d),
   w32 (st.e + r.e), w32 (st.f + r.f), w32 (st.g + r.g), w32 (st.h + r.h)⟩

def chunks64 (l : List Nat) : List (List Nat) :=
  if l = [] then [] else l.take 64 :: chunks64 (l.drop 64)
termination_by l.length
decreasing_by
  simp only [List.length_drop]
  cases l with
  | nil => simp_all
  | cons c rest => simp only [List.length_cons]; omega

/-- 8-byte big-endian encoding of the 64-bit message bit length. -/
def be8 (n : Nat) : List Nat :=
  [(n >>> 56) % 256, (n >>> 48) % 256, (n >>> 40) % 256, (n >>> 32) % 256,
   (n >>> 24) % 256, (n >>> 16) % 256, (n >>> 8) % 256, n % 256]

/-- 4-byte big-endian encoding of a 32-bit word. -/
def be4 (n : Nat) : List Nat :=
  [(n >>> 24) % 256, (n >>> 16) % 256, (n >>> 8) % 256, n % 256]

def padMsg (msg : List Nat) : List Nat :=
  let len := msg.length
  let k := (119 - len % 64) % 64
  msg ++ [128] ++ List.replicate k 0 ++ be8 (len * 8)

def sha256Bytes (msg : List Nat) : List Nat :=
  let final := (chunks64 (padMsg msg)).foldl processBlock sha256Init
  be4 final.a ++ be4 final.b ++ be4 final.c ++ be4 final.d ++
  be4 final.e ++ be4 final.f ++ be4 final.g ++ be4 final.h

def hexDigit (n : Nat) : Char :=
  if n < 10 then Char.ofNat (48 + n) else Char.ofNat (87 + n)

def bytesToHexChars (l : List Nat) : List Char :=
  l.foldr (fun b acc => hexDigit (b / 16) :: hexDigit (b % 16) :: acc) []

/-- UTF-8 encoding of one character, as in Python `str.encode()`. -/
def encUtf8Char (c : Char) : List Nat :=
  let n := c.toNat
  if n < 128 then [n]
  else if n < 2048 then [192 + n / 64, 128 + n % 64]
  else if n < 65536 then [224 + n / 4096, 128 + (n / 64) % 64, 128 + n % 64]
  else [240 + n / 262144, 128 + (n / 4096) % 64, 128 + (n / 64) % 64, 128 + n % 64]

def utf8Bytes (s : String) : List Nat :=
  s.data.foldr (fun c acc => encUtf8Char c ++ acc) []

/-- Hex digest characters of the SHA-256 of the UTF-8 encoding of a string:
`hashlib.sha256(s.encode()).hexdigest()`, as a character list. -/
def sha256HexChars (s : String) : List Char :=
  bytesToHexChars (sha256Bytes (utf8Bytes s))

def sha256Hex (s : String) : String := String.mk (sha256HexChars s)

/-! ## Data model (`src/intentmodel/intent_model.py`) and JSON dumping

`Tool` and `AgentComponents` mirror the pydantic models.  The
`configuration` dictionary is modelled as an ordered association list of
string keys to string values (the demo registrations only use flat string
configurations). -/

structure Tool where
  name : String
  signature : String
  description : String
  source_code : Option String := none
  is_agent : Bool := false
deriving Repr, DecidableEq

structure AgentComponents where
  agent_id : String
  prompt_template : String
  tools : List Tool
  configuration : List (String × String) := []
deriving Repr, DecidableEq

/-- JSON string escaping as in `json.dumps` (default `ensure_ascii=True`). -/
def jsonEscapeChar (c : Char) : List Char :=
  let n := c.toNat
  let uesc : Nat → List Char := fun m =>
    ['\\', 'u', hexDigit ((m / 4096) % 16), hexDigit ((m / 256) % 16),
     hexDigit ((m / 16) % 16), hexDigit (m % 16)]
  if c = '"' then ['\\', '"']
  else if c = '\\' then ['\\', '\\']
  else if c = '\n' then ['\\', 'n']
  else if c = '\r' then ['\\', 'r']
  else if c = '\t' then ['\\', 't']
  else if c = '\x08' then ['\\', 'b']
  else if c = '\x0c' then ['\\', 'f']
  else if n < 32 then uesc n
  else if n < 127 then [c]
  else if n < 65536 then uesc n
  else uesc (55296 + (n - 65536) / 1024) ++ uesc (56320 + (n - 65536) % 1024)

def jsonStr (s : String) : String :=
  String.mk ('"' :: s.data.foldr (fun c acc => jsonEscapeChar c ++ acc) ['"'])

/-- A JSON object with the given (already key-sorted) fields, rendered with
`json.dumps`'s default separators. -/
def jsonObj (fields : List (String × String)) : String :=
  "\x7b" ++ String.intercalate ", " (fields.map (fun f => jsonStr f.1 ++ ": " ++ f.2)) ++ "\x7d"

def jsonArr (elems : List String) : String :=
  "[" ++ String.intercalate ", " elems ++ "]"

/-- `_prepare_tool` from `src/util/commons.py`, composed with
`json.dumps(..., sort_keys=True)` rendering of the tool dictionary (keys in
sorted order: description, name, signature, source_code). -/
def dumpTool (t : Tool) : String :=
  jsonObj ([("description", jsonStr t.description), ("name", jsonStr t.name),
            ("signature", jsonStr t.signature)] ++
           (match t.source_code with
            | some sc => [("source_code", jsonStr sc)]
            | none => []))

/-- Stable insertion preserving the relative order of equal keys, as Python's
stable `sorted(..., key=...)`. -/
def insByName (x : Tool) : List Tool → List Tool
  | [] => [x]
  | y :: ys => if y.name ≤ x.name then y :: insByName x ys else x :: y :: ys

def sortToolsByName (l : List Tool) : List Tool :=
  l.foldl (fun acc x => insByName x acc) []

def insByKey (x : String × String) : List (String × String) → List (String × String)
  | [] => [x]
  | y :: ys => if y.1 ≤ x.1 then y :: insByKey x ys else x :: y :: ys

def sortByKey (l : List (String × String)) : List (String × String) :=
  l.foldl (fun acc x => insByKey x acc) []

def dumpConfiguration (cfg : List (String × String)) : String :=
  jsonObj ((sortByKey cfg).map (fun p => (p.1, jsonStr p.2)))

/-- The `json.dumps(components, sort_keys=True)` content string built by
`compute_agent_checksum`: the outer keys in sorted order are
config, id, prompt, tools. -/
def checksumContent (c : AgentComponents) : String :=
  jsonObj [("config", dumpConfiguration c.configuration),
           ("id", jsonStr c.agent_id),
           ("prompt", jsonStr (normalize_prompt c.prompt_template)),
           ("tools", jsonArr ((sortToolsByName c.tools).map dumpTool))]

/-- `compute_agent_checksum` from `src/util/commons.py`. -/
def compute_agent_checksum (c : AgentComponents) : String :=
  sha256Hex (checksumContent c)

/-! ## IDP data model (`src/intentmodel/intent_model.py`, `src/idp/intent.py`)

Python dictionaries become ordered association lists; `registered_agents`
and `registered_workflows` (module-level `DefaultDict(list)`) become the
fields of `IdpState`.  A dict value accessed through `.get(k)` is `none`
when the key is missing; `.get(k, d)` uses the explicit default. -/

def lookupFirst {α : Type} (m : List (String × α)) (k : String) : Option α :=
  match m with
  | [] => none
  | (k0, v) :: rest => if k0 = k then some v else lookupFirst rest k

structure WorkflowStep where
  agent : String
  action : String
  scopes : List String := []
  dependencies : List String := []
  required : Bool := false
  approval_gate : Bool := false
  requires_approval : Bool := false
deriving Repr, DecidableEq

structure WorkflowDefinition where
  workflow_id : String
  workflow_type : String := "dag"
  steps : List (String × WorkflowStep)
deriving Repr, DecidableEq

structure Registration where
  app_id : String
  agent_id : String
  registration_id : String
  checksum : String
  prompt : String
  tools : List Tool
  public_key : Option String
  registered_at : Nat
  version : Option String := none
deriving Repr, DecidableEq

structure RegistrationRequest where
  app_id : String
  agent_components : AgentComponents
  public_key : String
deriving Repr, DecidableEq

/-- The `workflow_step` dictionary of a token request, with the dictionary
accesses of `_validate_workflow_step` pre-applied: `step_id` and `agent_id`
via `.get(key, '')` and `tool_name` via `.get('tool_name', None)`.
`pyrepr` carries the Python `str()` rendering of the dictionary, which is
what `_compute_sequence_hash` hashes; dictionary `repr` formatting is not
re-modelled.  A missing or empty (falsy) `workflow_step` is `none` at the
`TokenRequest` level. -/
structure ActiveStep where
  step_id : String := ""
  agent_id : String := ""
  tool_name : Option String := none
  pyrepr : String := ""
deriving Repr, DecidableEq

/-- An element of `delegation_context['completed_steps']`: the validator
only reads `s['step_id']`; `pyrepr` carries the Python `str()` rendering
used by `_compute_sequence_hash`. -/
structure CompletedStep where
  step_id : String
  pyrepr : String := ""
deriving Repr, DecidableEq

/-- The `delegation_context` dictionary.  `none` on a field models a
missing key (or an explicit `None` value), which the code treats as falsy;
chain elements are carried in their stringified form. -/
structure DelegationContext where
  completed_steps : Option (List CompletedStep) := none
  chain : Option (List String) := none
deriving Repr, DecidableEq

structure TokenRequest where
  grant_type : String
  agent_id : String
  computed_checksum : String
  workflow_id : Option String := none
  workflow_step : Option ActiveStep := none
  requested_scopes : List String
  audience : String
  delegation_context : Option DelegationContext := none
  workflow_enabled : Bool := true
deriving Repr, DecidableEq

/-- The in-memory registries of `idp/server.py`
(`registered_agents`, `registered_workflows`). -/
structure IdpState where
  registered_agents : List (String × List Registration) := []
  registered_workflows : List (String × List WorkflowDefinition) := []
deriving Repr, DecidableEq

/-- Error outcomes of `mint_token`.  The first four are the
`HTTPException`s raised by the source; `typeError` models the Python
`TypeError` raised when `self._check_approval(...)` passes five arguments
to the four-parameter function `_check_approval` (which lacks a `self`
parameter); `indexError` models the `IndexError` of `regs[-1]` on an empty
registration list (unreachable for states produced by `register_agent`). -/
inductive MintError where
  | unsupportedGrantType
  | unknownAgent
  | checksumMismatch
  | workflowDenied
  | typeError
  | indexError
deriving Repr, DecidableEq

/-- The HTTP status of the `HTTPException` carried by each `mint_token`
error; `none` for the Python exceptions that are not `HTTPException`s
(FastAPI turns those into a 500 response). -/
def http_exception_status : MintError → Option Nat
  | .unsupportedGrantType => some 400
  | .unknownAgent => some 401
  | .checksumMismatch => some 401
  | .workflowDenied => some 403
  | .typeError => none
  | .indexError => none

/-- The scope check of `_validate_workflow_step`
(`needed_scopes = step_def.scopes; if needed_scopes: missing_scopes = [s
for s in needed_scopes if s not in has_scopes]; if missing_scopes: return
False`): passes unless the step declares scopes and some declared scope is
missing from `has_scopes`. -/
def scope_check (step_def : WorkflowStep) (has_scopes : List String) : Bool :=
  let needed_scopes := step_def.scopes
  if needed_scopes ≠ [] then
    (needed_scopes.filter (fun s => ¬ has_scopes.contains s)) = []
  else true

/-- The `required_step_ids` expression of `_validate_workflow_step`:
`takewhile(lambda x: steps[x].required == True and x != step_id,
steps.keys())`.  The scan stops at the first step that is not required or
is the requested step itself. -/
def required_step_ids (steps : List (String × WorkflowStep)) (step_id : String) : List String :=
  (steps.takeWhile (fun p => p.2.required && p.1 != step_id)).map (fun p => p.1)

/-- The body of `_check_approval` as written in the source: find the last
`approval_gate=true` step preceding `active_step_id` in enumeration order,
and require it to be among the completed step ids.  (The function itself is
unreachable: it lacks a `self` parameter, so the bound-method call in
`_validate_workflow_step` raises `TypeError` before this body runs.) -/
def approval_gate_before_current : List (String × WorkflowStep) → String → Option String
  | [], _ => none
  | (k, st) :: rest, active_step_id =>
    if k = active_step_id then none
    else
      match approval_gate_before_current rest active_step_id with
      | some g => some g
      | none => if st.approval_gate then some k else none

def check_approval_body (steps : List (String × WorkflowStep))
    (active_step_id : String) (completed_steps : List CompletedStep) : Bool :=
  match approval_gate_before_current steps active_step_id with
  | none => false
  | some gate => (completed_steps.map (fun s => s.step_id)).contains gate

/-- `_validate_workflow_step` from `src/idp/intent.py`.  Returns
`Except.ok` with the validation verdict, or `Except.error ()` for the
`TypeError` raised by the five-arguments-for-four call
`self._check_approval(request.workflow_id, steps, step_id,
completed_steps)` (reached exactly when `step_def.requires_approval` and
all earlier checks pass). -/
def validate_workflow_step (st : IdpState) (request : TokenRequest)
    (has_scopes : List String) : Except Unit Bool :=
  match request.workflow_id.bind (lookupFirst st.registered_workflows) with
  | none => .ok false
  | some [] => .ok false
  | some (w0 :: ws) =>
    match request.workflow_step with
    | none => .ok false
    | some active_step =>
      let step_id := active_step.step_id
      let agent_id := active_step.agent_id
      let steps := ((w0 :: ws).getLast (List.cons_ne_nil w0 ws)).steps
      match lookupFirst steps step_id with
      | none => .ok false
      | some step_def =>
        if agent_id ≠ step_def.agent then .ok false
        else if active_step.tool_name ≠ some step_def.action then .ok false
        else if ¬ scope_check step_def has_scopes then .ok false
        else
          match request.delegation_context with
          | none => .ok false
          | some ctx =>
            match ctx.completed_steps with
            | none => .ok (step_def.dependencies.isEmpty)
            | some [] => .ok (step_def.dependencies.isEmpty)
            | some (c0 :: cs) =>
              let completed_steps := c0 :: cs
              let completed_step_ids := completed_steps.map (fun s => s.step_id)
              if ¬ step_def.dependencies.isEmpty ∧
                 ¬ step_def.dependencies.all (fun d => completed_step_ids.contains d) then
                .ok false
              else
                match ctx.chain with
                | none => .ok false
                | some [] => .ok false
                | some (_ :: _) =>
                  let required := required_step_ids steps step_id
                  if ¬ required.isEmpty ∧
                     ¬ required.all (fun r => completed_step_ids.contains r) then
                    .ok false
                  else if step_def.requires_approval then
                    .error ()
                  else .ok true

/-- `_compute_sequence_hash` from `src/idp/intent.py`: stringify the
sequence (elements are carried here in stringified form), append the
stringified `workflow_step` when it is truthy, join with a pipe, and take
the first 16 hex characters of the SHA-256 digest. -/
def compute_sequence_hash (request : TokenRequest) (sequence : List String) : String :=
  let seq := match request.workflow_step with
    | some astep => sequence ++ [astep.pyrepr]
    | none => sequence
  String.mk ((sha256HexChars (String.intercalate "|" seq)).take 16)

/-- The JWT payload built by `_create_intent_token`, without the RS256
signing step and with the `cnf.jwk` entry carried as the registration's
PEM public key (the PEM-to-JWK conversion is pure key-format plumbing and
is not re-modelled).  `now` is `int(time.time())` and `jti` the
uuid-derived token identifier. -/
structure IntentClaims where
  workflow_id : Option String
  workflow_step : Option ActiveStep
  executed_by : String
  delegation_chain : String
  step_sequence_hash : String
deriving Repr, DecidableEq

structure TokenPayload where
  iss : Option String
  aud : String
  sub : String
  exp : Nat
  iat : Nat
  jti : String
  scope : String
  cnf_jwk_from_pem : Option String
  intent : IntentClaims
  agent_checksum : String
  registration_id : String
deriving Repr, DecidableEq

/-- `_create_intent_token` from `src/idp/intent.py` (the claim set; the
caller guarantees a registration exists, passed here as `lastReg`). -/
def create_intent_token (request : TokenRequest) (lastReg : Registration)
    (now : Nat) (jti : String) (issuer : Option String) : TokenPayload :=
  { iss := issuer
    aud := request.audience
    sub := request.agent_id
    exp := now + 3000
    iat := now
    jti := jti
    scope := String.intercalate " " request.requested_scopes
    cnf_jwk_from_pem := lastReg.public_key
    intent :=
      { workflow_id := request.workflow_id
        workflow_step := request.workflow_step
        executed_by := request.agent_id
        delegation_chain :=
          compute_sequence_hash request
            (match request.delegation_context with
             | some ctx => ctx.chain.getD [request.agent_id]
             | none => [request.agent_id])
        step_sequence_hash :=
          compute_sequence_hash request
            (match request.delegation_context with
             | some ctx => (ctx.completed_steps.getD []).map (fun s => s.pyrepr)
             | none => []) }
    agent_checksum := request.computed_checksum
    registration_id := lastReg.registration_id }

structure TokenResponse where
  access_token : TokenPayload
  token_type : String
  expires_in : Nat
  scope : List String
deriving Repr, DecidableEq

/-- `mint_token` from `src/idp/intent.py`.  The pair's second component is
the registry state after the call (mint never writes the registries, so
every branch returns `st`). -/
def mint_token (st : IdpState) (request : TokenRequest) (has_scopes : List String)
    (now : Nat) (jti : String) (issuer : Option String) :
    Except MintError TokenResponse × IdpState :=
  if request.grant_type ≠ "agent_checksum" then
    (.error .unsupportedGrantType, st)
  else
    match lookupFirst st.registered_agents request.agent_id with
    | none => (.error .unknownAgent, st)
    | some regs =>
      match regs.getLast? with
      | none => (.error .indexError, st)
      | some lastReg =>
        if request.computed_checksum ≠ lastReg.checksum then
          (.error .checksumMismatch, st)
        else if request.workflow_enabled then
          match validate_workflow_step st request (has_scopes ++ request.requested_scopes) with
          | .error () => (.error .typeError, st)
          | .ok false => (.error .workflowDenied, st)
          | .ok true =>
            (.ok { access_token := create_intent_token request lastReg now jti issuer
                   token_type := "Bearer"
                   expires_in := 300
                   scope := request.requested_scopes }, st)
        else
          (.ok { access_token := create_intent_token request lastReg now jti issuer
                 token_type := "Bearer"
                 expires_in := 300
                 scope := request.requested_scopes }, st)

/-! ## Agent and workflow registration (`src/idp/intent.py`) -/

/-- The duplicate-checksum scan of `register_agent`: `for registrations in
registered_agents.values(): for registration in registrations: if
registration.checksum == agent_checksum: raise HTTPException(400, ...)`. -/
def any_checksum (m : List (String × List Registration)) (c : String) : Bool :=
  m.any (fun p => p.2.any (fun r => r.checksum = c))

/-- `registered_agents[agent_id].append(reg)` on the `DefaultDict(list)`:
append to the existing entry, or create a singleton entry for a new key. -/
def appendReg (m : List (String × List Registration)) (k : String) (r : Registration) :
    List (String × List Registration) :=
  match m with
  | [] => [(k, [r])]
  | (k0, rs) :: rest =>
    if k0 = k then (k0, rs ++ [r]) :: rest else (k0, rs) :: appendReg rest k r

/-- Parsing `major, minor, patch = map(int, version.split('.'))` in
`_compute_next_checksum_version`; a `ValueError` yields `none`. -/
def parseVersion (v : String) : Option (Nat × Nat × Nat) :=
  match v.splitOn "." with
  | [a, b, c] =>
    match a.toNat?, b.toNat?, c.toNat? with
    | some x, some y, some z => some (x, y, z)
    | _, _, _ => none
  | _ => none

/-- `_compute_next_checksum_version` from `src/idp/intent.py`.
`_detect_change_type` is a stub that always returns `PATCH`, so a parsed
previous version always gets a patch bump. -/
def compute_next_checksum_version (st : IdpState) (agent_id : String) : String :=
  let agent_history := (lookupFirst st.registered_agents agent_id).getD []
  match agent_history.getLast? with
  | none => "1.0.0"
  | some prev =>
    match prev.version with
    | none => "1.0.0"
    | some v =>
      if v = "" then "1.0.0"
      else
        match parseVersion v with
        | none => "1.0.0"
        | some (major, minor, patch) =>
          toString major ++ "." ++ toString minor ++ "." ++ toString (patch + 1)

inductive RegError where
  | duplicateChecksum
deriving Repr, DecidableEq

structure RegResult where
  agent_id : String
  registration_id : String
  checksum : String
deriving Repr, DecidableEq

/-- `register_agent` from `src/idp/intent.py`; `now` is `int(time.time())`.
The duplicate-checksum `HTTPException(400)` is raised before any mutation,
so the error branch returns the state unchanged. -/
def register_agent (st : IdpState) (rr : RegistrationRequest) (now : Nat) :
    Except RegError RegResult × IdpState :=
  let components := rr.agent_components
  let agent_checksum := compute_agent_checksum components
  let registration_id := "reg_" ++ components.agent_id ++ "_" ++ toString now
  if any_checksum st.registered_agents agent_checksum then
    (.error .duplicateChecksum, st)
  else
    let registration0 : Registration :=
      { app_id := rr.app_id
        agent_id := components.agent_id
        registration_id := registration_id
        checksum := agent_checksum
        prompt := components.prompt_template
        tools := components.tools
        public_key := if rr.public_key ≠ "" then some rr.public_key else none
        registered_at := now * 1000
        version := none }
    let registration :=
      { registration0 with version := some (compute_next_checksum_version st components.agent_id) }
    (.ok { agent_id := components.agent_id
           registration_id := registration_id
           checksum := agent_checksum },
     { st with registered_agents := appendReg st.registered_agents components.agent_id registration })

inductive RegWfError where
  | duplicateSteps
deriving Repr, DecidableEq

inductive RegWfResult where
  | skipped (workflow_id : String)
  | registered (workflow_id : String)
deriving Repr, DecidableEq

/-- The scan of `register_workflow` over `registered_workflows.items()`. -/
def workflowScan (entries : List (String × List WorkflowDefinition))
    (wf : WorkflowDefinition) : Option (Except RegWfError RegWfResult) :=
  match entries with
  | [] => none
  | (id0, wfs) :: rest =>
    let w := wfs.getLastD { workflow_id := "", steps := [] }
    if id0 = wf.workflow_id then some (.ok (.skipped wf.workflow_id))
    else if w = wf ∨ w.steps = wf.steps then some (.error .duplicateSteps)
    else workflowScan rest wf

def appendWf (m : List (String × List WorkflowDefinition)) (k : String)
    (w : WorkflowDefinition) : List (String × List WorkflowDefinition) :=
  match m with
  | [] => [(k, [w])]
  | (k0, ws) :: rest =>
    if k0 = k then (k0, ws ++ [w]) :: rest else (k0, ws) :: appendWf rest k w

/-- `register_workflow` from `src/idp/intent.py`. -/
def register_workflow (st : IdpState) (wf : WorkflowDefinition) :
    Except RegWfError RegWfResult × IdpState :=
  match workflowScan st.registered_workflows wf with
  | some (.ok r) => (.ok r, st)
  | some (.error e) => (.error e, st)
  | none =>
    (.ok (.registered wf.workflow_id),
     { st with registered_workflows := appendWf st.registered_workflows wf.workflow_id wf })

/-- `deregister_workflow` from `src/idp/intent.py` (`pop(workflow_id, None)`). -/
def deregister_workflow (st : IdpState) (workflow_id : String) : IdpState :=
  { st with registered_workflows :=
      st.registered_workflows.filter (fun p => p.1 ≠ workflow_id) }

/-- Registry states reachable from the empty in-memory registries through
the mutating IDP endpoints (`register_agent`, `register_workflow`,
`deregister_workflow`; `mint_token` leaves the state unchanged). -/
inductive Reachable : IdpState → Prop
  | init : Reachable {}
  | regAgent {st st' rr now res} : Reachable st →
      register_agent st rr now = (.ok res, st') → Reachable st'
  | regWf {st st' wf r} : Reachable st →
      register_workflow st wf = (r, st') → Reachable st'
  | deregWf {st wid} : Reachable st → Reachable (deregister_workflow st wid)

/-! ## Client shim workflow trace (`src/clientshim/secure_client.py`) -/

inductive WorkflowStepStatus where
  | STARTED
  | COMPLETED
  | FAILED
deriving Repr, DecidableEq

structure ActiveRecord where
  step_id : String
  agent_id : String
  tool_name : String
  started_at : Nat
deriving Repr, DecidableEq

/-- A record appended to `history` by `_record_tool_invocation`: either a
completion record (with `completed_at` and `duration`) or a failure record
(with `failed_at` and `error`).  Timestamps are abstract clock values;
the float `duration` is the truncated difference. -/
inductive HistoryRecord where
  | completed (step_id agent_id tool_name : String)
      (started_at completed_at duration : Nat)
  | failed (step_id agent_id tool_name : String)
      (started_at failed_at : Nat) (error : Option String)
deriving Repr, DecidableEq

/-- The per-execution workflow state held in the `workflow_state`
context variable. -/
structure ShimWorkflowState where
  execution_id : String
  workflow_id : Option String := none
  completed_steps : List HistoryRecord := []
  failed_steps : List HistoryRecord := []
  history : List HistoryRecord := []
  active_step : Option ActiveRecord := none
  started_at : Nat := 0
deriving Repr, DecidableEq

/-- `start_workflow_execution`: a fresh state with empty step lists and no
active step (`execution_id` is the uuid-derived identifier, `now` the
start timestamp). -/
def start_workflow_execution (workflow_id : String) (execution_id : String)
    (now : Nat) : ShimWorkflowState :=
  { execution_id := execution_id
    workflow_id := some workflow_id
    completed_steps := []
    failed_steps := []
    history := []
    active_step := none
    started_at := now }

/-- Python `str.lower()` (tool names are ASCII identifiers; only the
ASCII range is modelled). -/
def pyLower (s : String) : String :=
  String.mk (s.data.map (fun c =>
    if 65 ≤ c.toNat ∧ c.toNat ≤ 90 then Char.ofNat (c.toNat + 32) else c))

/-- `_get_step_id_for_tool`: the optional explicit mapping (agent-specific
key first, then the global tool key), falling back to the lowercased tool
name.  `none` models a client without a `tool_to_step_mapping`
attribute. -/
def get_step_id_for_tool (mapping : Option (List (String × String)))
    (agent_id tool_name : String) : String :=
  match mapping with
  | some m =>
    match lookupFirst m (agent_id ++ "." ++ tool_name) with
    | some sid => sid
    | none =>
      match lookupFirst m tool_name with
      | some sid => sid
      | none => pyLower tool_name
  | none => pyLower tool_name

/-- `_record_tool_invocation` from `src/clientshim/secure_client.py`:
STARTED overwrites the active step; COMPLETED/FAILED act only when the
derived step id matches the current active step, appending one record to
`history` and to `completed_steps`/`failed_steps` and clearing the active
step. -/
def record_tool_invocation (mapping : Option (List (String × String)))
    (ws : ShimWorkflowState) (agent_id tool_name : String)
    (status : WorkflowStepStatus) (error : Option String) (now : Nat) :
    ShimWorkflowState :=
  let step_id := get_step_id_for_tool mapping agent_id tool_name
  match status with
  | .STARTED =>
    let active : ActiveRecord :=
      { step_id := step_id, agent_id := agent_id,
        tool_name := tool_name, started_at := now }
    { ws with active_step := some active }
  | .COMPLETED =>
    match ws.active_step with
    | some active =>
      if active.step_id = step_id then
        let completed_step : HistoryRecord :=
          .completed step_id agent_id tool_name active.started_at now (now - active.started_at)
        { ws with history := ws.history ++ [completed_step]
                  completed_steps := ws.completed_steps ++ [completed_step]
                  active_step := none }
      else ws
    | none => ws
  | .FAILED =>
    match ws.active_step with
    | some active =>
      if active.step_id = step_id then
        let failed_step : HistoryRecord :=
          .failed step_id agent_id tool_name active.started_at now error
        { ws with history := ws.history ++ [failed_step]
                  failed_steps := ws.failed_steps ++ [failed_step]
                  active_step := none }
      else ws
    | none => ws

/-- Shim workflow states reachable from `start_workflow_execution` by any
sequence of recorded tool invocations. -/
inductive ShimReachable : ShimWorkflowState → Prop
  | start {wid eid now} : ShimReachable (start_workflow_execution wid eid now)
  | record {ws mapping agent_id tool_name status error now} : ShimReachable ws →
      ShimReachable (record_tool_invocation mapping ws agent_id tool_name status error now)

/-- The HTTP status of the `HTTPException` raised by `register_agent` on a
duplicate checksum. -/
def reg_exception_status : RegError → Nat
  | .duplicateChecksum => 400

/-- No two registrations belonging to distinct agent ids share a
checksum. -/
def ChecksumInjective (st : IdpState) : Prop :=
  ∀ p1 ∈ st.registered_agents, ∀ p2 ∈ st.registered_agents, p1.1 ≠ p2.1 →
    ∀ r1 ∈ p1.2, ∀ r2 ∈ p2.2, r1.checksum ≠ r2.checksum

/-- Spec-side formula for the token's sequence-integrity claims: the first
16 hexadecimal characters of the SHA-256 digest of the pipe-join of a
stringified sequence followed by the stringified new step. -/
def spec_truncated_sequence_hash (seq : List String) (stepStr : String) : String :=
  String.mk ((sha256HexChars (String.intercalate "|" (seq ++ [stepStr]))).take 16)

/-- The completed-step ids carried by a token request's delegation
context. -/
def completedIdsOf (req : TokenRequest) : List String :=
  match req.delegation_context with
  | some ctx => (ctx.completed_steps.getD []).map (fun s => s.step_id)
  | none => []

/-! ## Concrete fixtures

Small registries and requests used to exercise the theorems on concrete
inputs.  `fixReg` builds a registration with a literal checksum; workflow
fixtures mirror the demo workflow shapes under `src/demo/`. -/

def fixReg (aid cs : String) : Registration :=
  { app_id := "app", agent_id := aid, registration_id := "reg_" ++ aid ++ "_1"
    checksum := cs, prompt := "p", tools := [], public_key := some "PEM"
    registered_at := 1000, version := some "1.0.0" }

/-- A deploy workflow shaped like the demo `secure_deploy_v1.0` workflow:
an optional init step, two required steps (the second an approval gate),
and a final required step with `requires_approval=True`. -/
def deployWf : WorkflowDefinition :=
  { workflow_id := "secure_deploy"
    steps :=
      [("init", { agent := "Supervisor", action := "Planner" }),
       ("prepare", { agent := "Planner", action := "prepare",
                     scopes := ["write:deployment"], required := true }),
       ("review", { agent := "Reviewer", action := "review",
                    scopes := ["approve:deployment"], dependencies := ["prepare"],
                    required := true, approval_gate := true }),
       ("deploy", { agent := "Deployer", action := "deploy",
                    scopes := ["deploy:production"], dependencies := ["review"],
                    required := true, requires_approval := true })] }

def deployState : IdpState :=
  { registered_agents := [("Deployer", [fixReg "Deployer" "cs-deployer"])]
    registered_workflows := [("secure_deploy", [deployWf])] }

/-- A request for the `requires_approval` deploy step with every earlier
check satisfied (matching agent and tool, scopes requested, dependencies
and the approval gate completed, non-empty chain). -/
def deployReq : TokenRequest :=
  { grant_type := "agent_checksum"
    agent_id := "Deployer"
    computed_checksum := "cs-deployer"
    workflow_id := some "secure_deploy"
    workflow_step := some { step_id := "deploy", agent_id := "Deployer",
                            tool_name := some "deploy", pyrepr := "step-deploy" }
    requested_scopes := ["deploy:production"]
    audience := "sbom.localhost"
    delegation_context := some
      { completed_steps := some [{ step_id := "init", pyrepr := "h-init" },
                                 { step_id := "prepare", pyrepr := "h-prepare" },
                                 { step_id := "review", pyrepr := "h-review" }]
        chain := some ["Supervisor", "Planner"] }
    workflow_enabled := true }

/-- A workflow whose required step `s2` comes after the optional step
`s1`: the `takewhile` required-step scan stops at `s1` and never sees
`s2`. -/
def gapWf : WorkflowDefinition :=
  { workflow_id := "gap_wf"
    steps :=
      [("s1", { agent := "A1", action := "act1" }),
       ("s2", { agent := "A2", action := "act2", required := true }),
       ("s3", { agent := "A3", action := "act3" })] }

def gapState : IdpState :=
  { registered_agents := [("A3", [fixReg "A3" "cs-a3"])]
    registered_workflows := [("gap_wf", [gapWf])] }

/-- A request for `s3` of `gapWf` whose completed steps omit the required
step `s2`. -/
def gapReq : TokenRequest :=
  { grant_type := "agent_checksum"
    agent_id := "A3"
    computed_checksum := "cs-a3"
    workflow_id := some "gap_wf"
    workflow_step := some { step_id := "s3", agent_id := "A3",
                            tool_name := some "act3", pyrepr := "step-s3" }
    requested_scopes := []
    audience := "sbom.localhost"
    delegation_context := some
      { completed_steps := some [{ step_id := "s1", pyrepr := "h-s1" }]
        chain := some ["A1"] }
    workflow_enabled := true }

/-- A two-step workflow whose first step is required: the `takewhile` scan
yields `[r1]`. -/
def chainWf : WorkflowDefinition :=
  { workflow_id := "chain_wf"
    steps :=
      [("r1", { agent := "B1", action := "bact1", required := true }),
       ("r2", { agent := "B2", action := "bact2" })] }

def chainState : IdpState :=
  { registered_agents := [("B2", [fixReg "B2" "cs-b2"])]
    registered_workflows := [("chain_wf", [chainWf])] }

def chainReq : TokenRequest :=
  { grant_type := "agent_checksum"
    agent_id := "B2"
    computed_checksum := "cs-b2"
    workflow_id := some "chain_wf"
    workflow_step := some { step_id := "r2", agent_id := "B2",
                            tool_name := some "bact2", pyrepr := "step-r2" }
    requested_scopes := []
    audience := "sbom.localhost"
    delegation_context := some
      { completed_steps := some [{ step_id := "r1", pyrepr := "h-r1" }]
        chain := some ["B1"] }
    workflow_enabled := true }

/-- The same request for `r2` of `chainWf`, but in the shim's first-call
shape: an empty `completed_steps` list.  `_validate_workflow_step`
early-returns `not step_def.dependencies` on this shape, before the
required-step scan. -/
def chainReqFirst : TokenRequest :=
  { chainReq with delegation_context := some ⟨some [], some ["B1"]⟩ }

/-- A workflow with one scoped step, for the scope-inflation scenario. -/
def scopeWf : WorkflowDefinition :=
  { workflow_id := "scope_wf"
    steps := [("s", { agent := "W", action := "tool_w",
                      scopes := ["read:file:config"] })] }

def scopeState : IdpState :=
  { registered_agents := [("W", [fixReg "W" "cs-w"])]
    registered_workflows := [("scope_wf", [scopeWf])] }

/-- The correct agent for the correct workflow step, requesting only the
scope `write:files:all`, which the step does not declare. -/
def scopeReq : TokenRequest :=
  { grant_type := "agent_checksum"
    agent_id := "W"
    computed_checksum := "cs-w"
    workflow_id := some "scope_wf"
    workflow_step := some { step_id := "s", agent_id := "W",
                            tool_name := some "tool_w", pyrepr := "step-s" }
    requested_scopes := ["write:files:all"]
    audience := "sbom.localhost"
    delegation_context := some
      { completed_steps := some [{ step_id := "s0", pyrepr := "h-s0" }]
        chain := some ["W"] }
    workflow_enabled := true }

/-- Components whose checksum an impostor re-registers under a different
agent id. -/
def dupComps : AgentComponents :=
  { agent_id := "impostor", prompt_template := "p", tools := [] }

def victimReg : Registration :=
  { app_id := "app", agent_id := "victim", registration_id := "reg_victim_1"
    checksum := compute_agent_checksum dupComps, prompt := "p", tools := []
    public_key := none, registered_at := 0, version := none }

def victimState : IdpState :=
  { registered_agents := [("victim", [victimReg])], registered_workflows := [] }

def dupRequest : RegistrationRequest :=
  { app_id := "app", agent_components := dupComps, public_key := "PEM2" }

/-! ## Helper lemmas -/

theorem bytesToHexChars_length (l : List Nat) : (bytesToHexChars l).length = 2 * l.length := by
  induction l with
  | nil => rfl
  | cons b t ih => simp [bytesToHexChars] at ih ⊢; omega

theorem sha256HexChars_length (s : String) : (sha256HexChars s).length = 64 := by
  have h32 : (sha256Bytes (utf8Bytes s)).length = 32 := by
    simp [sha256Bytes, be4]
  simp [sha256HexChars, bytesToHexChars_length, h32]

theorem spec_truncated_sequence_hash_length (seq : List String) (stepStr : String) :
    (spec_truncated_sequence_hash seq stepStr).length = 16 := by
  simp [spec_truncated_sequence_hash, String.length, List.length_take, sha256HexChars_length]

theorem scope_check_iff_subset (step_def : WorkflowStep) (hs : List String) :
    scope_check step_def hs = true ↔ ∀ s ∈ step_def.scopes, s ∈ hs := by
  unfold scope_check
  by_cases h : step_def.scopes = []
  · simp [h]
  · simp only [h, ne_eq, not_false_iff, if_true, decide_eq_true_eq]
    rw [List.filter_eq_nil_iff]
    constructor
    · intro hh s hms
      have := hh s hms
      simpa [List.elem_iff] using this
    · intro hh s hms
      simp [List.elem_iff]
      exact hh s hms

theorem appendReg_mem_cases (k : String) (r : Registration) :
    ∀ (m : List (String × List Registration)) (p : String × List Registration),
      p ∈ appendReg m k r → ∀ x ∈ p.2,
      (∃ q ∈ m, q.1 = p.1 ∧ x ∈ q.2) ∨ (x = r ∧ p.1 = k) := by
  intro m
  induction m with
  | nil =>
    intro p hp x hx
    simp [appendReg] at hp
    subst hp
    simp at hx
    exact Or.inr ⟨hx, rfl⟩
  | cons q0 rest ih =>
    obtain ⟨k0, rs⟩ := q0
    intro p hp x hx
    simp only [appendReg] at hp
    by_cases hk : k0 = k
    · rw [if_pos hk] at hp
      rcases List.mem_cons.mp hp with h1 | h2
      · subst h1
        simp only at hx
        rcases List.mem_append.mp hx with hq | hr
        · exact Or.inl ⟨(k0, rs), List.mem_cons_self _ _, rfl, hq⟩
        · simp at hr
          exact Or.inr ⟨hr, hk⟩
      · exact Or.inl ⟨p, List.mem_cons_of_mem _ h2, rfl, hx⟩
    · rw [if_neg hk] at hp
      rcases List.mem_cons.mp hp with h1 | h2
      · subst h1
        exact Or.inl ⟨(k0, rs), List.mem_cons_self _ _, rfl, hx⟩
      · rcases ih p h2 x hx with ⟨q, hqm, hq1, hq2⟩ | hnew
        · exact Or.inl ⟨q, List.mem_cons_of_mem _ hqm, hq1, hq2⟩
        · exact Or.inr hnew

theorem register_agent_ok_inv (st : IdpState) (rr : RegistrationRequest) (now : Nat)
    (res : RegResult) (st' : IdpState)
    (h : register_agent st rr now = (.ok res, st')) :
    any_checksum st.registered_agents (compute_agent_checksum rr.agent_components) = false ∧
    ∃ reg : Registration,
      st'.registered_agents =
        appendReg st.registered_agents rr.agent_components.agent_id reg ∧
      reg.checksum = compute_agent_checksum rr.agent_components := by
  unfold register_agent at h
  split at h
  · dsimp only at h
    split at h
    · simp at h
    · rename_i hguard
      simp only [Prod.mk.injEq] at h
      obtain ⟨hres, hst⟩ := h
      subst hst
      exact ⟨by simpa using hguard, _, rfl, rfl⟩
  · dsimp only at h
    split at h
    · simp at h
    · rename_i hguard
      simp only [Prod.mk.injEq] at h
      obtain ⟨hres, hst⟩ := h
      subst hst
      exact ⟨by simpa using hguard, _, rfl, rfl⟩

theorem register_workflow_agents_eq (st : IdpState) (wf : WorkflowDefinition)
    (r : Except RegWfError RegWfResult) (st' : IdpState)
    (h : register_workflow st wf = (r, st')) :
    st'.registered_agents = st.registered_agents := by
  unfold register_workflow at h
  split at h <;> simp only [Prod.mk.injEq] at h <;> rw [← h.2]

theorem reachable_checksum_injective (st : IdpState) (h : Reachable st) :
    ChecksumInjective st := by
  induction h with
  | init =>
    intro p1 hp1
    simp at hp1
  | regAgent hreach hreg ih =>
    rename_i st0 st' rr now res
    obtain ⟨hguard, reg, hagents, hcs⟩ := register_agent_ok_inv st0 rr now res st' hreg
    have hguard2 : ∀ q ∈ st0.registered_agents, ∀ x ∈ q.2,
        ¬ x.checksum = compute_agent_checksum rr.agent_components := by
      intro q hq x hx hco
      rw [Bool.eq_false_iff, ne_eq] at hguard
      exact hguard (by
        rw [any_checksum, List.any_eq_true]
        exact ⟨q, hq, by rw [List.any_eq_true]; exact ⟨x, hx, by simp [hco]⟩⟩)
    intro p1 hp1 p2 hp2 hne r1 hr1 r2 hr2
    rw [hagents] at hp1 hp2
    rcases appendReg_mem_cases _ _ _ _ hp1 r1 hr1 with ⟨q1, hq1m, hq1e, hq1x⟩ | ⟨hr1new, hp1k⟩
    · rcases appendReg_mem_cases _ _ _ _ hp2 r2 hr2 with ⟨q2, hq2m, hq2e, hq2x⟩ | ⟨hr2new, hp2k⟩
      · exact ih q1 hq1m q2 hq2m (by rw [hq1e, hq2e]; exact hne) r1 hq1x r2 hq2x
      · rw [hr2new, hcs]
        exact fun hco => (hguard2 q1 hq1m r1 hq1x) hco
    · rcases appendReg_mem_cases _ _ _ _ hp2 r2 hr2 with ⟨q2, hq2m, hq2e, hq2x⟩ | ⟨hr2new, hp2k⟩
      · rw [hr1new, hcs]
        exact fun hco => (hguard2 q2 hq2m r2 hq2x) hco.symm
      · exact absurd (hp1k.trans hp2k.symm) hne
  | regWf hreach hreg ih =>
    rename_i st0 st' wf r
    intro p1 hp1 p2 hp2
    rw [register_workflow_agents_eq st0 wf r st' hreg] at hp1 hp2
    exact ih p1 hp1 p2 hp2
  | deregWf hreach ih =>
    intro p1 hp1 p2 hp2
    exact ih p1 hp1 p2 hp2

/-! ## Claim theorems -/

/-- C1: contrary to the claim, workflow validation of a
`requires_approval` step does NOT deny with *workflow-denied*: the call
`self._check_approval(request.workflow_id, steps, step_id,
completed_steps)` passes five arguments to the four-parameter function
`_check_approval` (written without `self`), so a Python `TypeError`
escapes (HTTP 500), and it escapes even when the nearest preceding
approval gate ("review") IS completed, as the written body
`check_approval_body` confirms at this input. -/
theorem c1_requires_approval_raises_type_error :
    validate_workflow_step deployState deployReq ["deploy:production"] = .error () ∧
    (mint_token deployState deployReq [] 0 "jti0" none).1 = .error .typeError ∧
    http_exception_status .typeError = none ∧
    (lookupFirst deployWf.steps "deploy").map (fun s => s.requires_approval) = some true ∧
    check_approval_body deployWf.steps "deploy"
      [{ step_id := "init", pyrepr := "h-init" }, { step_id := "prepare", pyrepr := "h-prepare" },
       { step_id := "review", pyrepr := "h-review" }] = true :=
  ⟨rfl, rfl, rfl, rfl, rfl⟩

/-- C2 counterexample: in `gapWf` the step `s2` is `required=true` and is
defined before the requested step `s3`, yet a request whose
`completed_steps` contain only `s1` is authorized (the `takewhile` scan
stops at the non-required step `s1` and never checks `s2`), so the claim
"every required step defined before `step_id` must appear in
`completed_steps`, regardless of where the non-required steps fall" is
false on the code. -/
theorem c2_required_after_optional_counterexample :
    validate_workflow_step gapState gapReq [] = .ok true ∧
    (mint_token gapState gapReq [] 0 "j" none).1.isOk = true ∧
    (lookupFirst gapWf.steps "s2").map (fun s => s.required) = some true ∧
    gapWf.steps.map (fun p => p.1) = ["s1", "s2", "s3"] ∧
    completedIdsOf gapReq = ["s1"] :=
  ⟨rfl, rfl, rfl, rfl, rfl⟩

/-- C2 (amended): the required-step rule is applied only when the
request's `completed_steps` list is non-empty, and then only to the
maximal run of consecutive `required=true` steps at the head of the
workflow's step-enumeration order (the `takewhile` scan stops at the
first non-required step or at the requested `step_id`): whenever
validation succeeds on a request with non-empty `completed_steps`, that
whole initial run is contained in the completed step ids.  When
`completed_steps` is missing or empty, the rule is skipped entirely:
validation returns, after the agent/tool/scope checks, exactly the check
that the step has no dependencies — success then carries no required-run
information, and in particular `chainReqFirst` (empty `completed_steps`,
uncompleted required run `[r1]`) is authorized. -/
theorem c2_amended_required_head_run_completed :
    (∀ (st : IdpState) (req : TokenRequest) (hs : List String)
        (w0 : WorkflowDefinition) (ws : List WorkflowDefinition) (astep : ActiveStep)
        (ctx : DelegationContext) (c0 : CompletedStep) (cs : List CompletedStep),
      req.workflow_id.bind (lookupFirst st.registered_workflows) = some (w0 :: ws) →
      req.workflow_step = some astep →
      req.delegation_context = some ctx →
      ctx.completed_steps = some (c0 :: cs) →
      validate_workflow_step st req hs = .ok true →
      ∀ k ∈ required_step_ids ((w0 :: ws).getLast (List.cons_ne_nil w0 ws)).steps astep.step_id,
        k ∈ (c0 :: cs).map (fun s => s.step_id)) ∧
    (∀ (st : IdpState) (req : TokenRequest) (hs : List String)
        (w0 : WorkflowDefinition) (ws : List WorkflowDefinition) (astep : ActiveStep)
        (ctx : DelegationContext) (step_def : WorkflowStep),
      req.workflow_id.bind (lookupFirst st.registered_workflows) = some (w0 :: ws) →
      req.workflow_step = some astep →
      req.delegation_context = some ctx →
      (ctx.completed_steps = none ∨ ctx.completed_steps = some []) →
      lookupFirst ((w0 :: ws).getLast (List.cons_ne_nil w0 ws)).steps astep.step_id =
        some step_def →
      validate_workflow_step st req hs = .ok true →
      step_def.dependencies = []) ∧
    validate_workflow_step chainState chainReqFirst [] = .ok true ∧
    required_step_ids chainWf.steps "r2" = ["r1"] ∧
    completedIdsOf chainReqFirst = [] := by
  refine ⟨?_, ?_, rfl, rfl, rfl⟩
  · intro st req hs w0 ws astep ctx c0 cs hwf hstep hctx hcomp hok
    unfold validate_workflow_step at hok
    rw [hwf, hstep, hctx] at hok
    dsimp only at hok
    rw [hcomp] at hok
    intro k hk
    split at hok
    · exact absurd hok (by simp)
    · split at hok
      · exact absurd hok (by simp)
      · split at hok
        · exact absurd hok (by simp)
        · split at hok
          · exact absurd hok (by simp)
          · split at hok
            · rename_i heq; exact absurd heq (by simp)
            · rename_i heq; exact absurd heq (by simp)
            · rename_i c0a csa heq
              injection heq with heq2
              injection heq2 with h1 h2
              subst h1; subst h2
              split at hok
              · exact absurd hok (by simp)
              · split at hok
                · exact absurd hok (by simp)
                · exact absurd hok (by simp)
                · split at hok
                  · exact absurd hok (by simp)
                  · rename_i hguard
                    split at hok
                    · exact absurd hok (by simp)
                    · by_cases hemp : (required_step_ids
                          ((w0 :: ws).getLast (List.cons_ne_nil w0 ws)).steps
                          astep.step_id).isEmpty = true
                      · rw [List.isEmpty_iff] at hemp
                        rw [hemp] at hk
                        exact absurd hk (by simp)
                      · have hall : (required_step_ids
                            ((w0 :: ws).getLast (List.cons_ne_nil w0 ws)).steps
                            astep.step_id).all
                              (fun r => ((c0 :: cs).map (fun s => s.step_id)).contains r)
                            = true := by
                          by_contra hno
                          exact hguard ⟨hemp, hno⟩
                        have := List.all_eq_true.mp hall k hk
                        simpa [List.elem_iff] using this
  · intro st req hs w0 ws astep ctx step_def hwf hstep hctx hcomp hstepdef hok
    unfold validate_workflow_step at hok
    rw [hwf, hstep, hctx] at hok
    dsimp only at hok
    split at hok
    · rename_i heq
      exact absurd (hstepdef.symm.trans heq) (by simp)
    · rename_i sd heq
      have hsd : sd = step_def := by
        have h := (hstepdef.symm.trans heq)
        injection h with h
        exact h.symm
      subst hsd
      split at hok
      · exact absurd hok (by simp)
      · split at hok
        · exact absurd hok (by simp)
        · split at hok
          · exact absurd hok (by simp)
          · rcases hcomp with hcomp | hcomp <;> rw [hcomp] at hok <;>
              simpa [List.isEmpty_iff] using hok

/-- C2 amended, exercised on `chainWf`: the validated request for `r2`
must have completed the initial required run, which contains `r1`. -/
theorem c2_amended_required_head_run_completed_witness :
    "r1" ∈ ([⟨"r1", "h-r1"⟩] : List CompletedStep).map (fun s => s.step_id) :=
  c2_amended_required_head_run_completed.1 chainState chainReq [] chainWf []
    { step_id := "r2", agent_id := "B2", tool_name := some "bact2", pyrepr := "step-r2" }
    { completed_steps := some [⟨"r1", "h-r1"⟩], chain := some ["B1"] }
    ⟨"r1", "h-r1"⟩ [] rfl rfl rfl rfl rfl "r1" (by decide)

/-- C3: `mint_token` performs its first three checks in the stated fixed
order with the stated error kinds — grant type (400 *bad-request*), agent
registered (401 *unknown-agent*), checksum against the LATEST stored
registration (401 *code-integrity-violation*) — and runs the workflow
check only when `workflow_enabled`.  The claim's fourth step,
"workflow-step authorization else HTTP 403", holds only when the
validator returns a verdict: a denial verdict yields 403 and an
authorization verdict mints the token, BUT on every request whose step
has `requires_approval=true` and passes the earlier checks (the demo
t8/t11 workflow shapes, e.g. `deployReq`) the validator raises
`TypeError` through the `self`-less `_check_approval` call, and
`mint_token` surfaces HTTP 500 — neither the claimed 403 nor a token. -/
theorem c3_mint_token_check_order (st : IdpState) (request : TokenRequest)
    (has_scopes : List String) (now : Nat) (jti : String) (issuer : Option String) :
    (request.grant_type ≠ "agent_checksum" →
      (mint_token st request has_scopes now jti issuer).1 = .error .unsupportedGrantType) ∧
    (request.grant_type = "agent_checksum" →
      lookupFirst st.registered_agents request.agent_id = none →
      (mint_token st request has_scopes now jti issuer).1 = .error .unknownAgent) ∧
    (∀ regs lastReg, request.grant_type = "agent_checksum" →
      lookupFirst st.registered_agents request.agent_id = some regs →
      regs.getLast? = some lastReg →
      request.computed_checksum ≠ lastReg.checksum →
      (mint_token st request has_scopes now jti issuer).1 = .error .checksumMismatch) ∧
    (∀ regs lastReg, request.grant_type = "agent_checksum" →
      lookupFirst st.registered_agents request.agent_id = some regs →
      regs.getLast? = some lastReg →
      request.computed_checksum = lastReg.checksum →
      request.workflow_enabled = true →
      validate_workflow_step st request (has_scopes ++ request.requested_scopes) = .ok false →
      (mint_token st request has_scopes now jti issuer).1 = .error .workflowDenied) ∧
    (∀ regs lastReg, request.grant_type = "agent_checksum" →
      lookupFirst st.registered_agents request.agent_id = some regs →
      regs.getLast? = some lastReg →
      request.computed_checksum = lastReg.checksum →
      request.workflow_enabled = true →
      validate_workflow_step st request (has_scopes ++ request.requested_scopes) = .error () →
      (mint_token st request has_scopes now jti issuer).1 = .error .typeError) ∧
    (∀ regs lastReg, request.grant_type = "agent_checksum" →
      lookupFirst st.registered_agents request.agent_id = some regs →
      regs.getLast? = some lastReg →
      request.computed_checksum = lastReg.checksum →
      request.workflow_enabled = true →
      validate_workflow_step st request (has_scopes ++ request.requested_scopes) = .ok true →
      (mint_token st request has_scopes now jti issuer).1 =
        .ok { access_token := create_intent_token request lastReg now jti issuer
              token_type := "Bearer", expires_in := 300,
              scope := request.requested_scopes }) ∧
    (∀ regs lastReg, request.grant_type = "agent_checksum" →
      lookupFirst st.registered_agents request.agent_id = some regs →
      regs.getLast? = some lastReg →
      request.computed_checksum = lastReg.checksum →
      request.workflow_enabled = false →
      (mint_token st request has_scopes now jti issuer).1 =
        .ok { access_token := create_intent_token request lastReg now jti issuer
              token_type := "Bearer", expires_in := 300,
              scope := request.requested_scopes }) ∧
    http_exception_status .unsupportedGrantType = some 400 ∧
    http_exception_status .unknownAgent = some 401 ∧
    http_exception_status .checksumMismatch = some 401 ∧
    http_exception_status .workflowDenied = some 403 ∧
    http_exception_status .typeError = none := by
  refine ⟨?_, ?_, ?_, ?_, ?_, ?_, ?_, rfl, rfl, rfl, rfl, rfl⟩
  · intro h; simp [mint_token, h]
  · intro h1 h2; simp [mint_token, h1, h2]
  · intro regs lastReg h1 h2 h3 h4; simp [mint_token, h1, h2, h3, h4]
  · intro regs lastReg h1 h2 h3 h4 h5 h6; simp [mint_token, h1, h2, h3, h4, h5, h6]
  · intro regs lastReg h1 h2 h3 h4 h5 h6; simp [mint_token, h1, h2, h3, h4, h5, h6]
  · intro regs lastReg h1 h2 h3 h4 h5 h6; simp [mint_token, h1, h2, h3, h4, h5, h6]
  · intro regs lastReg h1 h2 h3 h4 h5; simp [mint_token, h1, h2, h3, h4, h5]

/-- C3, exercised on concrete requests: one for each outcome, including
the `requires_approval` request on which the workflow check surfaces the
`TypeError` (HTTP 500) instead of the claimed 403-or-token. -/
theorem c3_mint_token_check_order_witness :
    (mint_token scopeState { scopeReq with grant_type := "client_credentials" }
        [] 0 "j" none).1 = .error .unsupportedGrantType ∧
    (mint_token scopeState { scopeReq with agent_id := "nobody" }
        [] 0 "j" none).1 = .error .unknownAgent ∧
    (mint_token scopeState { scopeReq with computed_checksum := "tampered" }
        [] 0 "j" none).1 = .error .checksumMismatch ∧
    (mint_token scopeState scopeReq [] 0 "j" none).1 = .error .workflowDenied ∧
    (mint_token deployState deployReq [] 0 "j" none).1 = .error .typeError ∧
    (mint_token chainState chainReq [] 0 "j" none).1 =
      .ok { access_token := create_intent_token chainReq (fixReg "B2" "cs-b2") 0 "j" none
            token_type := "Bearer", expires_in := 300, scope := chainReq.requested_scopes } ∧
    (mint_token chainState { chainReq with workflow_enabled := false } [] 0 "j" none).1 =
      .ok { access_token := create_intent_token { chainReq with workflow_enabled := false }
              (fixReg "B2" "cs-b2") 0 "j" none
            token_type := "Bearer", expires_in := 300, scope := chainReq.requested_scopes } :=
  ⟨(c3_mint_token_check_order scopeState _ [] 0 "j" none).1 (by decide),
   (c3_mint_token_check_order scopeState _ [] 0 "j" none).2.1 rfl rfl,
   (c3_mint_token_check_order scopeState _ [] 0 "j" none).2.2.1 _ _ rfl rfl rfl (by decide),
   (c3_mint_token_check_order scopeState scopeReq [] 0 "j" none).2.2.2.1 _ _ rfl rfl rfl rfl rfl rfl,
   (c3_mint_token_check_order deployState deployReq [] 0 "j" none).2.2.2.2.1 _ _ rfl rfl rfl rfl rfl rfl,
   (c3_mint_token_check_order chainState chainReq [] 0 "j" none).2.2.2.2.2.1 _ _ rfl rfl rfl rfl rfl rfl,
   (c3_mint_token_check_order chainState _ [] 0 "j" none).2.2.2.2.2.2.1 _ _ rfl rfl rfl rfl rfl⟩

/-- C4: a registration request whose recomputed checksum equals the
checksum of an existing registration of another agent id is rejected with
the 400 *checksum-collision* error and leaves the registry unchanged; and
every reachable registry state has no checksum shared between
registrations of distinct agent ids. -/
theorem c4_checksum_collision_rejected_and_injective :
    (∀ (st : IdpState) (rr : RegistrationRequest) (now : Nat),
      (∃ p ∈ st.registered_agents, p.1 ≠ rr.agent_components.agent_id ∧
        ∃ r ∈ p.2, r.checksum = compute_agent_checksum rr.agent_components) →
      register_agent st rr now = (.error .duplicateChecksum, st)) ∧
    reg_exception_status .duplicateChecksum = 400 ∧
    (∀ st : IdpState, Reachable st → ChecksumInjective st) := by
  refine ⟨?_, rfl, reachable_checksum_injective⟩
  intro st rr now ⟨p, hp, hne, r, hr, hcs⟩
  have hany : any_checksum st.registered_agents (compute_agent_checksum rr.agent_components)
      = true := by
    rw [any_checksum, List.any_eq_true]
    exact ⟨p, hp, by rw [List.any_eq_true]; exact ⟨r, hr, by simp [hcs]⟩⟩
  unfold register_agent
  split <;> rw [if_pos hany]

/-- C4, exercised concretely: re-registering the components of another
agent's existing registration is rejected and the state is unchanged;
the empty initial registry is reachable and checksum-injective. -/
theorem c4_checksum_collision_witness :
    register_agent victimState dupRequest 7 = (.error .duplicateChecksum, victimState) ∧
    ChecksumInjective {} :=
  ⟨c4_checksum_collision_rejected_and_injective.1 victimState dupRequest 7
     ⟨("victim", [victimReg]), List.mem_cons_self _ _, by decide,
      victimReg, List.mem_cons_self _ _, rfl⟩,
   c4_checksum_collision_rejected_and_injective.2.2 {} Reachable.init⟩

/-- C5: the workflow scope check passes if and only if every scope
declared by the step is contained in `has_scopes` (the union of the
caller's granted scopes and the requested scopes, as `mint_token` extends
it); in particular the scope-inflation request — correct agent, correct
step, requesting only `write:files:all` against a step declaring
`read:file:config` — is denied with *workflow-denied*. -/
theorem c5_scope_check_subset_iff :
    (∀ (step_def : WorkflowStep) (hs : List String),
      scope_check step_def hs = true ↔ ∀ s ∈ step_def.scopes, s ∈ hs) ∧
    validate_workflow_step scopeState scopeReq ([] ++ scopeReq.requested_scopes) = .ok false ∧
    (mint_token scopeState scopeReq [] 0 "j" none).1 = .error .workflowDenied ∧
    http_exception_status .workflowDenied = some 403 :=
  ⟨scope_check_iff_subset, rfl, rfl, rfl⟩

/-- C6: contrary to the claim (and to the `expires_in=300` the endpoint
returns alongside), the JWT's `exp` claim is `iat + 3000`, not
`iat + 300`: the token outlives the advertised 5-minute lifetime by a
factor of ten. -/
theorem c6_token_exp_is_iat_plus_3000_not_300 (st : IdpState) (request : TokenRequest)
    (has_scopes : List String) (now : Nat) (jti : String) (issuer : Option String) :
    (mint_token st request has_scopes now jti issuer).1.map
        (fun r => (r.access_token.exp, r.expires_in)) =
      (mint_token st request has_scopes now jti issuer).1.map
        (fun r => (r.access_token.iat + 3000, 300)) ∧
    (∀ lastReg, (create_intent_token request lastReg now jti issuer).exp = now + 3000) ∧
    (3000 : Nat) ≠ 300 := by
  refine ⟨?_, fun lastReg => rfl, by decide⟩
  unfold mint_token
  repeat' split
  all_goals rfl

/-- C7: in a minted token the `intent` claims carry the workflow
identifiers plus two truncated hashes: `step_sequence_hash` is the first
16 hex characters of the SHA-256 of the pipe-join of the stringified
completed steps followed by the stringified workflow step, and
`delegation_chain` is the same construction over the delegation chain;
the sequences themselves appear only through these 16-character
digests. -/
theorem c7_sequence_hashes (req : TokenRequest) (now : Nat) (jti : String)
    (issuer : Option String) (astep : ActiveStep) (ctx : DelegationContext)
    (cs : List CompletedStep) (ch : List String)
    (hstep : req.workflow_step = some astep)
    (hctx : req.delegation_context = some ctx)
    (hcomp : ctx.completed_steps = some cs)
    (hchain : ctx.chain = some ch) :
    (∀ lastReg, (create_intent_token req lastReg now jti issuer).intent =
      { workflow_id := req.workflow_id
        workflow_step := req.workflow_step
        executed_by := req.agent_id
        delegation_chain := spec_truncated_sequence_hash ch astep.pyrepr
        step_sequence_hash :=
          spec_truncated_sequence_hash (cs.map (fun s => s.pyrepr)) astep.pyrepr }) ∧
    (spec_truncated_sequence_hash (cs.map (fun s => s.pyrepr)) astep.pyrepr).length = 16 ∧
    (spec_truncated_sequence_hash ch astep.pyrepr).length = 16 ∧
    (∀ st hs,
      (mint_token st req hs now jti issuer).1.map
          (fun r => r.access_token.intent.step_sequence_hash) =
        (mint_token st req hs now jti issuer).1.map
          (fun _ => spec_truncated_sequence_hash (cs.map (fun s => s.pyrepr)) astep.pyrepr) ∧
      (mint_token st req hs now jti issuer).1.map
          (fun r => r.access_token.intent.delegation_chain) =
        (mint_token st req hs now jti issuer).1.map
          (fun _ => spec_truncated_sequence_hash ch astep.pyrepr)) := by
  have hcreate : ∀ lastReg : Registration,
      (create_intent_token req lastReg now jti issuer).intent =
      { workflow_id := req.workflow_id
        workflow_step := req.workflow_step
        executed_by := req.agent_id
        delegation_chain := spec_truncated_sequence_hash ch astep.pyrepr
        step_sequence_hash :=
          spec_truncated_sequence_hash (cs.map (fun s => s.pyrepr)) astep.pyrepr } := by
    intro lastReg
    simp [create_intent_token, compute_sequence_hash, hstep, hctx, hcomp, hchain,
      spec_truncated_sequence_hash]
  refine ⟨hcreate, spec_truncated_sequence_hash_length _ _,
    spec_truncated_sequence_hash_length _ _, ?_⟩
  intro st hs
  constructor
  · unfold mint_token
    repeat' split
    all_goals simp [Except.map, hcreate]
  · unfold mint_token
    repeat' split
    all_goals simp [Except.map, hcreate]

/-- C7, exercised on the deploy-step request. -/
theorem c7_sequence_hashes_witness :
    (create_intent_token deployReq (fixReg "Deployer" "cs-deployer") 0 "j" none).intent =
      { workflow_id := deployReq.workflow_id
        workflow_step := deployReq.workflow_step
        executed_by := deployReq.agent_id
        delegation_chain :=
          spec_truncated_sequence_hash ["Supervisor", "Planner"] "step-deploy"
        step_sequence_hash :=
          spec_truncated_sequence_hash ["h-init", "h-prepare", "h-review"] "step-deploy" } :=
  (c7_sequence_hashes deployReq 0 "j" none
    { step_id := "deploy", agent_id := "Deployer", tool_name := some "deploy",
      pyrepr := "step-deploy" }
    { completed_steps := some [{ step_id := "init", pyrepr := "h-init" },
                               { step_id := "prepare", pyrepr := "h-prepare" },
                               { step_id := "review", pyrepr := "h-review" }]
      chain := some ["Supervisor", "Planner"] }
    [{ step_id := "init", pyrepr := "h-init" }, { step_id := "prepare", pyrepr := "h-prepare" },
     { step_id := "review", pyrepr := "h-review" }]
    ["Supervisor", "Planner"] rfl rfl rfl rfl).1 (fixReg "Deployer" "cs-deployer")

/-- C9: the shim's per-execution workflow trace keeps at most one active
step: a fresh execution has empty `completed_steps`, `failed_steps` and
`history` and no active step; STARTED records the started step as the
(single) active step without touching the lists; COMPLETED and FAILED for
the step matching the active one append exactly one record to `history`
and to the respective list and clear the active step, and leave the state
unchanged when no matching step is active; consequently in every
reachable trace state `completed_steps` and `failed_steps` are
subsequences of `history`. -/
theorem c9_single_active_step_state_machine :
    (∀ wid eid now, start_workflow_execution wid eid now =
      { execution_id := eid, workflow_id := some wid, completed_steps := []
        failed_steps := [], history := [], active_step := none, started_at := now }) ∧
    (∀ mapping (ws : ShimWorkflowState) agent_id tool_name error now,
      record_tool_invocation mapping ws agent_id tool_name .STARTED error now =
        { ws with active_step := some ⟨get_step_id_for_tool mapping agent_id tool_name, agent_id, tool_name, now⟩ }) ∧
    (∀ mapping (ws : ShimWorkflowState) agent_id tool_name error now active,
      ws.active_step = some active →
      active.step_id = get_step_id_for_tool mapping agent_id tool_name →
      record_tool_invocation mapping ws agent_id tool_name .COMPLETED error now =
        { ws with
            history := ws.history ++
              [HistoryRecord.completed (get_step_id_for_tool mapping agent_id tool_name)
                agent_id tool_name active.started_at now (now - active.started_at)]
            completed_steps := ws.completed_steps ++
              [HistoryRecord.completed (get_step_id_for_tool mapping agent_id tool_name)
                agent_id tool_name active.started_at now (now - active.started_at)]
            active_step := none }) ∧
    (∀ mapping (ws : ShimWorkflowState) agent_id tool_name error now active,
      ws.active_step = some active →
      active.step_id = get_step_id_for_tool mapping agent_id tool_name →
      record_tool_invocation mapping ws agent_id tool_name .FAILED error now =
        { ws with
            history := ws.history ++
              [HistoryRecord.failed (get_step_id_for_tool mapping agent_id tool_name)
                agent_id tool_name active.started_at now error]
            failed_steps := ws.failed_steps ++
              [HistoryRecord.failed (get_step_id_for_tool mapping agent_id tool_name)
                agent_id tool_name active.started_at now error]
            active_step := none }) ∧
    (∀ mapping (ws : ShimWorkflowState) agent_id tool_name error now status active,
      status ≠ WorkflowStepStatus.STARTED →
      ws.active_step = some active →
      active.step_id ≠ get_step_id_for_tool mapping agent_id tool_name →
      record_tool_invocation mapping ws agent_id tool_name status error now = ws) ∧
    (∀ ws : ShimWorkflowState, ShimReachable ws →
      ws.completed_steps.Sublist ws.history ∧ ws.failed_steps.Sublist ws.history) := by
  refine ⟨fun wid eid now => rfl, fun mapping ws a t e n => rfl, ?_, ?_, ?_, ?_⟩
  · intro mapping ws agent_id tool_name error now active hact hid
    unfold record_tool_invocation
    rw [hact]
    simp [hid]
  · intro mapping ws agent_id tool_name error now active hact hid
    unfold record_tool_invocation
    rw [hact]
    simp [hid]
  · intro mapping ws agent_id tool_name error now status active hstat hact hid
    unfold record_tool_invocation
    cases status with
    | STARTED => exact absurd rfl hstat
    | COMPLETED => rw [hact]; simp [hid]
    | FAILED => rw [hact]; simp [hid]
  · intro ws h
    induction h with
    | start => exact ⟨List.Sublist.refl _, List.Sublist.refl _⟩
    | record hws ih =>
      rename_i ws0 mapping agent_id tool_name status error now
      obtain ⟨ihc, ihf⟩ := ih
      unfold record_tool_invocation
      cases status with
      | STARTED => exact ⟨ihc, ihf⟩
      | COMPLETED =>
        cases hact : ws0.active_step with
        | none => exact ⟨ihc, ihf⟩
        | some active =>
          by_cases heq : active.step_id = get_step_id_for_tool mapping agent_id tool_name
          · simp only [heq, if_pos]
            exact ⟨ihc.append (List.Sublist.refl _),
                   ihf.trans (List.sublist_append_left _ _)⟩
          · simp only [heq, if_neg, not_false_iff]
            exact ⟨ihc, ihf⟩
      | FAILED =>
        cases hact : ws0.active_step with
        | none => exact ⟨ihc, ihf⟩
        | some active =>
          by_cases heq : active.step_id = get_step_id_for_tool mapping agent_id tool_name
          · simp only [heq, if_pos]
            exact ⟨ihc.trans (List.sublist_append_left _ _),
                   ihf.append (List.Sublist.refl _)⟩
          · simp only [heq, if_neg, not_false_iff]
            exact ⟨ihc, ihf⟩

/-- C9, exercised on a start-record-complete run. -/
theorem c9_single_active_step_witness :
    record_tool_invocation none
        (record_tool_invocation none (start_workflow_execution "wf" "exec1" 0)
          "AgentA" "ToolA" .STARTED none 1)
        "AgentA" "ToolA" .COMPLETED none 2 =
      { execution_id := "exec1", workflow_id := some "wf"
        completed_steps := [HistoryRecord.completed "toola" "AgentA" "ToolA" 1 2 1]
        failed_steps := []
        history := [HistoryRecord.completed "toola" "AgentA" "ToolA" 1 2 1]
        active_step := none, started_at := 0 } := by
  have h := c9_single_active_step_state_machine.2.2.1 none
    (record_tool_invocation none (start_workflow_execution "wf" "exec1" 0)
      "AgentA" "ToolA" .STARTED none 1)
    "AgentA" "ToolA" none 2 ⟨"toola", "AgentA", "ToolA", 1⟩ (by decide) (by decide)
  exact h.trans (by decide)

/-- C10: minting a token is read-only with respect to the IDP registries:
whatever the outcome, the registry state after `mint_token` is exactly
the input state. -/
theorem c10_mint_token_preserves_registries (st : IdpState) (request : TokenRequest)
    (has_scopes : List String) (now : Nat) (jti : String) (issuer : Option String) :
    (mint_token st request has_scopes now jti issuer).2 = st := by
  unfold mint_token
  repeat' split
  all_goals rfl

/-! ## Lemmas for C8: `normalize_prompt` formatting invariance -/
theorem splitNl_ne_nil (l : List Char) : splitNl l ≠ [] := by
  cases l with
  | nil => simp [splitNl]
  | cons c rest =>
    unfold splitNl
    by_cases h : c = '\n'
    · simp [h]
    · simp only [h, if_neg, not_false_iff]
      cases splitNl rest <;> simp

theorem stripEnd_nil : stripEnd [] = [] := rfl

theorem stripEnd_cons (c : Char) (l : List Char) :
    stripEnd (c :: l) = if stripEnd l = [] then stripEnd [c] else c :: stripEnd l := by
  unfold stripEnd
  simp only [List.reverse_cons, List.dropWhile_append]
  by_cases h : (List.dropWhile isPySpace l.reverse).isEmpty = true
  · rw [if_pos h]
    rw [List.isEmpty_iff] at h
    rw [h]
    simp
  · rw [if_neg h]
    have hdw : List.dropWhile isPySpace l.reverse ≠ [] := by
      intro hh
      exact h (by simp [hh])
    have hne : (List.dropWhile isPySpace l.reverse).reverse ≠ [] := by
      simpa using hdw
    rw [if_neg hne]
    simp

theorem stripEnd_all_ws (w : List Char) (hw : ∀ c ∈ w, isPySpace c) : stripEnd w = [] := by
  unfold stripEnd
  have : List.dropWhile isPySpace w.reverse = [] := by
    rw [List.dropWhile_eq_nil_iff]
    intro x hx
    exact hw x (List.mem_reverse.mp hx)
  rw [this]
  rfl

theorem pyStrip_all_ws (w : List Char) (hw : ∀ c ∈ w, isPySpace c) : pyStrip w = [] := by
  unfold pyStrip
  rw [stripEnd_all_ws w hw]
  rfl

theorem stripStart_cons_ws (c : Char) (l : List Char) (hc : isPySpace c) :
    stripStart (c :: l) = stripStart l := by
  simp [stripStart, List.dropWhile_cons, hc]

theorem pyStrip_cons_ws (c : Char) (l : List Char) (hc : isPySpace c) :
    pyStrip (c :: l) = pyStrip l := by
  unfold pyStrip
  rw [stripEnd_cons]
  by_cases h : stripEnd l = []
  · rw [if_pos h, h]
    have : stripEnd [c] = [] := stripEnd_all_ws [c] (by simpa using hc)
    rw [this]
  · rw [if_neg h]
    exact stripStart_cons_ws c _ hc

theorem pyStrip_append_ws (l w : List Char) (hw : ∀ c ∈ w, isPySpace c) :
    pyStrip (l ++ w) = pyStrip l := by
  unfold pyStrip
  congr 1
  unfold stripEnd
  rw [List.reverse_append, List.dropWhile_append]
  have : List.dropWhile isPySpace w.reverse = [] := by
    rw [List.dropWhile_eq_nil_iff]
    intro x hx
    exact hw x (List.mem_reverse.mp hx)
  rw [this]
  simp

theorem splitNl_cons_ne (c : Char) (l : List Char) (hc : c ≠ '\n') :
    splitNl (c :: l) = (c :: (splitNl l).headD []) :: (splitNl l).tail := by
  have h := splitNl_ne_nil l
  cases hs : splitNl l with
  | nil => exact absurd hs h
  | cons a t =>
    simp only [List.headD_cons, List.tail_cons]
    conv_lhs => rw [splitNl]
    rw [if_neg hc, hs]

theorem promptContent_cons_nl (l : List Char) :
    promptContent ('\n' :: l) = promptContent l := by
  unfold promptContent
  have : splitNl ('\n' :: l) = [] :: splitNl l := by
    conv_lhs => rw [splitNl]
    simp
  rw [this]
  simp [pyStrip, stripEnd, stripStart]

theorem promptContent_cons_ws (c : Char) (l : List Char) (hc : isPySpace c) :
    promptContent (c :: l) = promptContent l := by
  by_cases hn : c = '\n'
  · rw [hn]; exact promptContent_cons_nl l
  · unfold promptContent
    rw [splitNl_cons_ne c l hn]
    have h := splitNl_ne_nil l
    cases hs : splitNl l with
    | nil => exact absurd hs h
    | cons a t =>
      simp only [hs, List.headD_cons, List.tail_cons, List.map_cons]
      rw [pyStrip_cons_ws c a hc]

theorem promptContent_ws_prepend (w : List Char) (hw : ∀ c ∈ w, isPySpace c) (l : List Char) :
    promptContent (w ++ l) = promptContent l := by
  induction w with
  | nil => rfl
  | cons c t ih =>
    have hc : isPySpace c := hw c (List.mem_cons_self c t)
    have ht : ∀ x ∈ t, isPySpace x := fun x hx => hw x (List.mem_cons_of_mem c hx)
    rw [List.cons_append, promptContent_cons_ws c (t ++ l) hc, ih ht]

theorem modifyLastL_cons (f : List Char → List Char) (a : List Char)
    (t : List (List Char)) (ht : t ≠ []) :
    modifyLastL f (a :: t) = a :: modifyLastL f t := by
  cases t with
  | nil => exact absurd rfl ht
  | cons b r => rfl

theorem splitNl_append (a b : List Char) :
    splitNl (a ++ b) =
      modifyLastL (fun x => x ++ (splitNl b).headD []) (splitNl a) ++ (splitNl b).tail := by
  induction a with
  | nil =>
    simp only [List.nil_append]
    have h := splitNl_ne_nil b
    cases hs : splitNl b with
    | nil => exact absurd hs h
    | cons x t => rfl
  | cons c a' ih =>
    by_cases hc : c = '\n'
    · subst hc
      have h1 : splitNl ('\n' :: (a' ++ b)) = [] :: splitNl (a' ++ b) := by
        conv_lhs => rw [splitNl]
        simp
      have h2 : splitNl ('\n' :: a') = [] :: splitNl a' := by
        conv_lhs => rw [splitNl]
        simp
      rw [List.cons_append, h1, h2, ih,
        modifyLastL_cons _ _ _ (splitNl_ne_nil a')]
      rfl
    · rw [List.cons_append, splitNl_cons_ne c (a' ++ b) hc, splitNl_cons_ne c a' hc, ih]
      have ha := splitNl_ne_nil a'
      cases hsa : splitNl a' with
      | nil => exact absurd hsa ha
      | cons x t =>
        cases t with
        | nil =>
          have hb := splitNl_ne_nil b
          cases hsb : splitNl b with
          | nil => exact absurd hsb hb
          | cons y u => simp [modifyLastL]
        | cons x2 t2 =>
          simp only [modifyLastL, List.headD_cons, List.tail_cons, List.cons_append]

theorem splitNl_all_ws (w : List Char) (hw : ∀ c ∈ w, isPySpace c) :
    ∀ line ∈ splitNl w, ∀ c ∈ line, isPySpace c := by
  induction w with
  | nil =>
    intro line hline
    simp [splitNl] at hline
    subst hline
    simp
  | cons c0 t ih =>
    have hc0 : isPySpace c0 := hw c0 (List.mem_cons_self c0 t)
    have ht : ∀ x ∈ t, isPySpace x := fun x hx => hw x (List.mem_cons_of_mem c0 hx)
    by_cases hn : c0 = '\n'
    · subst hn
      intro line hline
      have : splitNl ('\n' :: t) = [] :: splitNl t := by
        conv_lhs => rw [splitNl]
        simp
      rw [this] at hline
      rcases List.mem_cons.mp hline with h1 | h2
      · subst h1; simp
      · exact ih ht line h2
    · intro line hline
      rw [splitNl_cons_ne c0 t hn] at hline
      have h := splitNl_ne_nil t
      cases hs : splitNl t with
      | nil => exact absurd hs h
      | cons a r =>
        rw [hs] at hline
        simp only [List.headD_cons, List.tail_cons] at hline
        rcases List.mem_cons.mp hline with h1 | h2
        · subst h1
          intro c hc
          rcases List.mem_cons.mp hc with h3 | h4
          · subst h3; exact hc0
          · exact ih ht a (by rw [hs]; exact List.mem_cons_self a r) c h4
        · exact ih ht line (by rw [hs]; exact List.mem_cons_of_mem a h2)

theorem map_pyStrip_modifyLastL_ws (hw : List Char) (hws : ∀ c ∈ hw, isPySpace c) :
    ∀ xs : List (List Char),
      (modifyLastL (fun x => x ++ hw) xs).map pyStrip = xs.map pyStrip := by
  intro xs
  induction xs with
  | nil => rfl
  | cons a t ih =>
    cases t with
    | nil => simp [modifyLastL, pyStrip_append_ws a hw hws]
    | cons b r =>
      rw [modifyLastL_cons _ _ _ (by simp)]
      simp only [List.map_cons]
      rw [ih]
      simp

theorem promptContent_append_ws (l w : List Char) (hw : ∀ c ∈ w, isPySpace c) :
    promptContent (l ++ w) = promptContent l := by
  unfold promptContent
  rw [splitNl_append l w]
  have hhead : ∀ c ∈ (splitNl w).headD [], isPySpace c := by
    have h := splitNl_ne_nil w
    cases hs : splitNl w with
    | nil => exact absurd hs h
    | cons a r =>
      simp only [List.headD_cons]
      exact splitNl_all_ws w hw a (by rw [hs]; exact List.mem_cons_self a r)
  rw [List.map_append, List.filter_append]
  rw [map_pyStrip_modifyLastL_ws _ hhead]
  have htail : ((splitNl w).tail.map pyStrip).filter (fun x => x ≠ []) = [] := by
    rw [List.filter_eq_nil_iff]
    intro x hx
    simp only [List.mem_map] at hx
    obtain ⟨line, hline, hlx⟩ := hx
    have : ∀ c ∈ line, isPySpace c :=
      splitNl_all_ws w hw line (List.mem_of_mem_tail hline)
    simp [← hlx, pyStrip_all_ws line this]
  rw [htail, List.append_nil]

theorem promptContent_stripStart (l : List Char) :
    promptContent (stripStart l) = promptContent l := by
  induction l with
  | nil => rfl
  | cons c t ih =>
    by_cases hc : isPySpace c
    · rw [stripStart, List.dropWhile_cons, if_pos hc]
      rw [show List.dropWhile isPySpace t = stripStart t from rfl, ih,
        promptContent_cons_ws c t hc]
    · rw [stripStart, List.dropWhile_cons, if_neg (by simp [hc])]

theorem promptContent_stripEnd (l : List Char) :
    promptContent (stripEnd l) = promptContent l := by
  have hdecomp : l = stripEnd l ++ (List.takeWhile isPySpace l.reverse).reverse := by
    conv_lhs => rw [← List.reverse_reverse l, ← List.takeWhile_append_dropWhile
      (p := isPySpace) (l := l.reverse)]
    rw [List.reverse_append]
    rfl
  have hws : ∀ c ∈ (List.takeWhile isPySpace l.reverse).reverse, isPySpace c := by
    intro c hc
    exact List.mem_takeWhile_imp (List.mem_reverse.mp hc)
  conv_rhs => rw [hdecomp]
  rw [promptContent_append_ws _ _ hws]

theorem promptContent_pyStrip (l : List Char) :
    promptContent (pyStrip l) = promptContent l := by
  unfold pyStrip
  rw [promptContent_stripStart, promptContent_stripEnd]

theorem map_stripEnd_splitNl_replaceCRLF (l : List Char) :
    (splitNl (replaceCRLF l)).map stripEnd = (splitNl l).map stripEnd := by
  induction l using replaceCRLF.induct with
  | case1 => rfl
  | case2 c => rfl
  | case3 c1 c2 rest hmatch ih =>
    obtain ⟨h1, h2⟩ := hmatch
    subst h1; subst h2
    conv_lhs => rw [replaceCRLF]
    rw [if_pos ⟨rfl, rfl⟩]
    have hL : splitNl ('\n' :: replaceCRLF rest) = [] :: splitNl (replaceCRLF rest) := by
      conv_lhs => rw [splitNl]
      simp
    have hR1 : splitNl ('\n' :: rest) = [] :: splitNl rest := by
      conv_lhs => rw [splitNl]
      simp
    rw [hL, splitNl_cons_ne '\r' ('\n' :: rest) (by decide), hR1]
    simp only [List.headD_cons, List.tail_cons, List.map_cons, ih]
    rfl
  | case4 c1 c2 rest hmatch ih =>
    conv_lhs => rw [replaceCRLF]
    rw [if_neg hmatch]
    by_cases hn : c1 = '\n'
    · subst hn
      have hL : splitNl ('\n' :: replaceCRLF (c2 :: rest)) =
          [] :: splitNl (replaceCRLF (c2 :: rest)) := by
        conv_lhs => rw [splitNl]
        simp
      have hR : splitNl ('\n' :: c2 :: rest) = [] :: splitNl (c2 :: rest) := by
        conv_lhs => rw [splitNl]
        simp
      rw [hL, hR]
      simp only [List.map_cons, ih]
    · rw [splitNl_cons_ne c1 _ hn, splitNl_cons_ne c1 _ hn]
      have hne := splitNl_ne_nil (replaceCRLF (c2 :: rest))
      have hne2 := splitNl_ne_nil (c2 :: rest)
      cases hsL : splitNl (replaceCRLF (c2 :: rest)) with
      | nil => exact absurd hsL hne
      | cons aL tL =>
        cases hsR : splitNl (c2 :: rest) with
        | nil => exact absurd hsR hne2
        | cons aR tR =>
          rw [hsL, hsR] at ih
          simp only [List.map_cons] at ih
          injection ih with ihh iht
          simp only [List.headD_cons, List.tail_cons, List.map_cons]
          rw [iht, stripEnd_cons c1 aL, stripEnd_cons c1 aR, ihh]

theorem promptContent_replaceCRLF (l : List Char) :
    promptContent (replaceCRLF l) = promptContent l := by
  unfold promptContent
  have h := map_stripEnd_splitNl_replaceCRLF l
  have : ∀ x : List (List Char), x.map pyStrip = (x.map stripEnd).map stripStart := by
    intro x
    rw [List.map_map]
    rfl
  rw [this, this, h]

theorem alnrDrop_structure (l : List Char) (k : Nat) (h : alnrDrop l = some k) :
    ∃ w, l.take k = w ++ ['\n'] ∧ (∀ c ∈ w, isPySpace c) ∧ k ≤ l.length := by
  induction l generalizing k with
  | nil => simp [alnrDrop] at h
  | cons c rest ih =>
    rw [alnrDrop] at h
    by_cases hc : isPySpace c
    · rw [if_pos hc] at h
      cases hrec : alnrDrop rest with
      | some k0 =>
        rw [hrec] at h
        injection h with h
        subst h
        obtain ⟨w, hw1, hw2, hw3⟩ := ih k0 hrec
        refine ⟨c :: w, ?_, ?_, ?_⟩
        · rw [List.take_succ_cons, hw1]
          rfl
        · intro x hx
          rcases List.mem_cons.mp hx with h1 | h2
          · subst h1; exact hc
          · exact hw2 x h2
        · simp; omega
      | none =>
        rw [hrec] at h
        by_cases hn : c = '\n'
        · rw [if_pos hn] at h
          injection h with h
          subst h
          subst hn
          exact ⟨[], rfl, by simp, by simp⟩
        · rw [if_neg hn] at h
          exact absurd h (by simp)
    · rw [if_neg hc] at h
      exact absurd h (by simp)

theorem promptContent_parts (x : List Char) :
    promptContent x =
      (if pyStrip ((splitNl x).headD []) = [] then []
       else [pyStrip ((splitNl x).headD [])]) ++
      (((splitNl x).tail.map pyStrip).filter (fun y => y ≠ [])) := by
  unfold promptContent
  have h := splitNl_ne_nil x
  cases hs : splitNl x with
  | nil => exact absurd hs h
  | cons a t =>
    simp only [List.headD_cons, List.tail_cons, List.map_cons, List.filter_cons]
    by_cases he : pyStrip a = []
    · simp [he]
    · simp [he]

theorem subBlank_parts (l : List Char) :
    (splitNl (subBlank l)).headD [] = (splitNl l).headD [] ∧
    ((splitNl (subBlank l)).tail.map pyStrip).filter (fun y => y ≠ []) =
      ((splitNl l).tail.map pyStrip).filter (fun y => y ≠ []) := by
  induction l using subBlank.induct with
  | case1 => rw [show subBlank [] = [] from by rw [subBlank]]; exact ⟨rfl, rfl⟩
  | case2 rest k hfind ih =>
    have hsub : subBlank ('\n' :: rest) = '\n' :: subBlank (rest.drop k) := by
      rw [subBlank]
      simp [hfind]
    have hfull : promptContent (subBlank (rest.drop k)) = promptContent (rest.drop k) := by
      rw [promptContent_parts, promptContent_parts (rest.drop k), ih.1, ih.2]
    obtain ⟨w, hw1, hw2, hw3⟩ := alnrDrop_structure rest k hfind
    have hsplit : rest = (w ++ ['\n']) ++ rest.drop k := by
      conv_lhs => rw [← List.take_append_drop k rest, hw1]
    have hrest : promptContent (rest.drop k) = promptContent rest := by
      conv_rhs => rw [hsplit]
      rw [promptContent_ws_prepend (w ++ ['\n']) ?hws (rest.drop k)]
      case hws =>
        intro c hc
        rcases List.mem_append.mp hc with h1 | h2
        · exact hw2 c h1
        · simp at h2
          subst h2
          decide
    have hL : splitNl ('\n' :: subBlank (rest.drop k)) =
        [] :: splitNl (subBlank (rest.drop k)) := by
      conv_lhs => rw [splitNl]
      simp
    have hR : splitNl ('\n' :: rest) = [] :: splitNl rest := by
      conv_lhs => rw [splitNl]
      simp
    rw [hsub, hL, hR]
    refine ⟨rfl, ?_⟩
    simp only [List.tail_cons]
    rw [show ((splitNl (subBlank (rest.drop k))).map pyStrip).filter (fun y => y ≠ []) =
        promptContent (subBlank (rest.drop k)) from rfl]
    rw [show ((splitNl rest).map pyStrip).filter (fun y => y ≠ []) =
        promptContent rest from rfl]
    rw [hfull, hrest]
  | case3 rest hfind ih =>
    have hsub : subBlank ('\n' :: rest) = '\n' :: subBlank rest := by
      rw [subBlank]
      simp [hfind]
    have hfull : promptContent (subBlank rest) = promptContent rest := by
      rw [promptContent_parts, promptContent_parts rest, ih.1, ih.2]
    have hL : splitNl ('\n' :: subBlank rest) = [] :: splitNl (subBlank rest) := by
      conv_lhs => rw [splitNl]
      simp
    have hR : splitNl ('\n' :: rest) = [] :: splitNl rest := by
      conv_lhs => rw [splitNl]
      simp
    rw [hsub, hL, hR]
    exact ⟨rfl, hfull⟩
  | case4 c rest hc ih =>
    have hsub : subBlank (c :: rest) = c :: subBlank rest := by
      rw [subBlank]
      simp [hc]
    rw [hsub, splitNl_cons_ne c (subBlank rest) hc, splitNl_cons_ne c rest hc]
    simp only [List.headD_cons, List.tail_cons]
    exact ⟨by rw [ih.1], ih.2⟩

theorem promptContent_subBlank (l : List Char) :
    promptContent (subBlank l) = promptContent l := by
  rw [promptContent_parts, promptContent_parts l, (subBlank_parts l).1, (subBlank_parts l).2]

theorem normalizePromptChars_eq (l : List Char) :
    normalizePromptChars l = List.intercalate ['\n'] (promptContent l) := by
  unfold normalizePromptChars
  by_cases h : l = []
  · subst h; rfl
  · rw [if_neg h]
    show List.intercalate ['\n'] (promptContent (subBlank (replaceCRLF (pyStrip l)))) = _
    rw [promptContent_subBlank, promptContent_replaceCRLF, promptContent_pyStrip]

/-- C8: prompts that have the same sequence of stripped non-empty lines
(`promptContentStr`) — in particular variants differing only in
CRLF-versus-LF line endings, leading/trailing whitespace, per-line
indentation, or runs of blank lines — normalize to the same string, and
agent components differing only in such prompt formatting have the same
checksum. -/
theorem c8_normalize_prompt_formatting_invariance (c : AgentComponents) (p q : String)
    (h : promptContentStr p = promptContentStr q) :
    normalize_prompt p = normalize_prompt q ∧
    compute_agent_checksum { c with prompt_template := p } =
      compute_agent_checksum { c with prompt_template := q } := by
  have hn : normalize_prompt p = normalize_prompt q := by
    unfold normalize_prompt
    rw [normalizePromptChars_eq, normalizePromptChars_eq]
    unfold promptContentStr at h
    rw [h]
  exact ⟨hn, by simp [compute_agent_checksum, checksumContent, hn]⟩

/-- C8, exercised on a concrete variant pair combining CRLF line endings,
indentation, trailing whitespace and a run of blank lines. -/
theorem c8_normalize_prompt_formatting_invariance_witness :
    normalize_prompt "  hello  \r\n\r\n\t world\n\n" = normalize_prompt "hello\nworld" ∧
    compute_agent_checksum
        { agent_id := "a", prompt_template := "  hello  \r\n\r\n\t world\n\n", tools := [] } =
      compute_agent_checksum
        { agent_id := "a", prompt_template := "hello\nworld", tools := [] } :=
  c8_normalize_prompt_formatting_invariance { agent_id := "a", prompt_template := "", tools := [] }
    "  hello  \r\n\r\n\t world\n\n" "hello\nworld" rfl

end Patchet




